import Mathlib

/-!
# Gaspard-Rice scattering: the stepping engine of `Scatter/scatter.cpp`

A shallow embedding of `GRModel` (scene construction, `orderSphere`, `iterate`) and of the
ray state of `Scatter/scatter.hpp`.

* `double` is read as an arbitrary linearly ordered field `F`; the square root used by
  `Eigen::norm` and `std::sqrt` is a parameter `sqrt : F → F` of the definitions, so that
  every definition is computable.  The theorems about exact real arithmetic take
  `F = ℝ` and `sqrt = Real.sqrt`.
* `unsigned int numReflections` is a natural number incremented modulo `2 ^ 32`.
* `Ray&` is threaded as a value: `iterate` returns the new ray together with the `bool`.
-/

namespace Scatter

/-! ## Geometry primitives (`scatter.hpp`) -/

/-- Column vector of `d = 3` scalars (`typedef Eigen::Matrix<double, d, 1> vec`). -/
structure vec (F : Type) where
  x : F
  y : F
  z : F
  deriving DecidableEq

section Defs

variable {F : Type} [LinearOrderedField F]

/-- Zero vector, `zvec`. -/
def zvec : vec F := ⟨0, 0, 0⟩

/-- Componentwise sum, `a + b`. -/
def vec.add (a b : vec F) : vec F := ⟨a.x + b.x, a.y + b.y, a.z + b.z⟩

/-- Componentwise difference, `a - b`. -/
def vec.sub (a b : vec F) : vec F := ⟨a.x - b.x, a.y - b.y, a.z - b.z⟩

/-- Scaling of a vector, `c * a` (also used for `a * c`). -/
def vec.smul (c : F) (a : vec F) : vec F := ⟨c * a.x, c * a.y, c * a.z⟩

/-- Scalar product, `a.dot(b)`. -/
def vec.dot (a b : vec F) : F := a.x * b.x + a.y * b.y + a.z * b.z

/-- Squared Euclidean length, `a.squaredNorm()`. -/
def vec.squaredNorm (a : vec F) : F := a.dot a

/-- Euclidean length, `a.norm()`: the square root of the squared length. -/
def vec.norm (sqrt : F → F) (a : vec F) : F := sqrt a.squaredNorm

/-- Trajectory state, `struct Ray`. -/
structure Ray (F : Type) where
  x : vec F
  v : vec F
  numReflections : Nat

/-- Sphere with centre `pos` and radius `r`, `struct Sphere`. -/
structure Sphere (F : Type) where
  pos : vec F
  r : F

/-- Candidate of the nearest-sphere search, `struct SphereOrdering`. -/
structure SphereOrdering (F : Type) where
  index : Nat
  distance : F

/-- Comparator handed to `sort`: `s1.distance < s2.distance`. -/
def sphereOrderingDistance (s1 s2 : SphereOrdering F) : Bool :=
  decide (s1.distance < s2.distance)

/-- Scene, `class GRModel`: the vector `mSphere`. -/
structure GRModel (F : Type) where
  mSphere : List (Sphere F)

/-! ## Scene construction (`scatter.cpp`, lines 18-45) -/

/-- Constructor `GRModel::GRModel(maxR)`: pushes the outer sphere. -/
def GRModel.new (maxR : F) : GRModel F := ⟨[⟨zvec, maxR⟩]⟩

/-- Method `GRModel::addSphere`: pushes one sphere at the back. -/
def GRModel.addSphere (m : GRModel F) (position : vec F) (radius : F) : GRModel F :=
  ⟨m.mSphere ++ [⟨position, radius⟩]⟩

/-- Sphere position 2D, first scatterer. -/
def s1gr2d : vec F := ⟨-0.7216878364870322, 1.25, 0⟩
/-- Sphere position 2D, second scatterer. -/
def s2gr2d : vec F := ⟨1.4433756729740645, 0, 0⟩
/-- Sphere position 2D, third scatterer. -/
def s3gr2d : vec F := ⟨-0.7216878364870322, -1.25, 0⟩
/-- Sphere position 3D (before rotation), first scatterer. -/
def s1gr3d : vec F := ⟨1, 0, -1 / 1.4142135623730951⟩
/-- Sphere position 3D (before rotation), second scatterer. -/
def s2gr3d : vec F := ⟨-1, 0, -1 / 1.4142135623730951⟩
/-- Sphere position 3D (before rotation), third scatterer. -/
def s3gr3d : vec F := ⟨0, 1, 1 / 1.4142135623730951⟩
/-- Sphere position 3D (before rotation), fourth scatterer. -/
def s4gr3d : vec F := ⟨0, -1, 1 / 1.4142135623730951⟩

/-- Method `GRModel::init2D`: the three spheres of the planar model. -/
def GRModel.init2D (m : GRModel F) (sSpacing sRadius : F) : GRModel F :=
  ((m.addSphere (vec.smul sSpacing s1gr2d) sRadius).addSphere
    (vec.smul sSpacing s2gr2d) sRadius).addSphere (vec.smul sSpacing s3gr2d) sRadius

/-- Product `O * a` for the matrix `O` of the rotation about the Y axis whose angle has
cosine `c` and sine `s`, as `Eigen::AngleAxisd(angle, UnitY()).toRotationMatrix()` builds it:
rows `(c, 0, s)`, `(0, 1, 0)`, `(-s, 0, c)`. -/
def rotY (c s : F) (a : vec F) : vec F :=
  ⟨c * a.x + s * a.z, a.y, -s * a.x + c * a.z⟩

/-- Method `GRModel::init3D`: the four spheres of the spatial model, rotated about Y.
The library values `c = cos (-M_PI_4)` and `s = sin (-M_PI_4)` are parameters. -/
def GRModel.init3D (c s : F) (m : GRModel F) (sSpacing sRadius : F) : GRModel F :=
  (((m.addSphere (vec.smul sSpacing (rotY c s s1gr3d)) sRadius).addSphere
    (vec.smul sSpacing (rotY c s s2gr3d)) sRadius).addSphere
    (vec.smul sSpacing (rotY c s s3gr3d)) sRadius).addSphere
    (vec.smul sSpacing (rotY c s s4gr3d)) sRadius

/-- One call of the public construction interface after the constructor. -/
inductive SceneOp (F : Type) where
  | addSphere (position : vec F) (radius : F)
  | init2D (sSpacing sRadius : F)
  | init3D (sSpacing sRadius : F)

/-- Effect of one construction call on the scene. -/
def GRModel.apply (c s : F) (m : GRModel F) : SceneOp F → GRModel F
  | .addSphere p radius => m.addSphere p radius
  | .init2D sp radius => m.init2D sp radius
  | .init3D sp radius => GRModel.init3D c s m sp radius

/-- Scene obtained from `GRModel(maxR)` followed by the calls `ops`, in order. -/
def GRModel.build (c s : F) (maxR : F) (ops : List (SceneOp F)) : GRModel F :=
  ops.foldl (GRModel.apply c s) (GRModel.new maxR)

/-! ## Candidate ordering (`GRModel::orderSphere`, lines 47-59) -/

/-- Insertion of one element in a list ordered by the comparator `lt`. -/
def sortInsert {α : Type} (lt : α → α → Bool) (a : α) : List α → List α
  | [] => [a]
  | b :: l => if lt b a then b :: sortInsert lt a l else a :: b :: l

/-- The call `sort(first, last, lt)`, as an insertion sort. -/
def sort {α : Type} (lt : α → α → Bool) : List α → List α
  | [] => []
  | a :: l => sortInsert lt a (sort lt l)

/-- Entries `order[0 .. N-2]` before sorting: scatterer `i` (for `i = 1 .. N-1`) with the
distance from `x0` to its centre. -/
def GRModel.scattererOrder (sqrt : F → F) (m : GRModel F) (x0 : vec F) :
    List (SphereOrdering F) :=
  (m.mSphere.tail.enumFrom 1).map fun p => ⟨p.1, (p.2.pos.sub x0).norm sqrt⟩

/-- Method `GRModel::orderSphere`: the scatterers sorted by increasing distance, then the
outer sphere in the last slot. -/
def GRModel.orderSphere (sqrt : F → F) (m : GRModel F) (x0 : vec F) :
    List (SphereOrdering F) :=
  sort sphereOrderingDistance (m.scattererOrder sqrt x0) ++ [⟨0, x0.norm sqrt⟩]

/-! ## One step (`GRModel::iterate`, lines 61-94) -/

/-- Sphere read by `mSphere[i]`; a default-constructed sphere stands for an index out of
range, which `orderSphere` never produces. -/
def GRModel.sphereAt (m : GRModel F) (i : Nat) : Sphere F :=
  m.mSphere.getD i ⟨zvec, 0⟩

/-- The `for` loop of `GRModel::iterate` over the remaining candidates; `none` when the
loop runs off the end without accepting a candidate. -/
def GRModel.iterateLoop (sqrt : F → F) (m : GRModel F) (r : Ray F) :
    List (SphereOrdering F) → Option (Ray F × Bool)
  | [] => none
  | it :: rest =>
    let s := m.sphereAt it.index
    let l := it.distance
    let tmp := s.pos.sub r.x
    let vd := r.v.dot tmp
    let delta := s.r * s.r + vd * vd - l * l
    if delta < 0 ∨ (vd < 0 ∧ it.index ≠ 0) then
      GRModel.iterateLoop sqrt m r rest
    else
      let delta1 := -sqrt delta
      let delta2 := if s.r > l then delta1 * -1 else delta1
      let numReflections := (r.numReflections + 1) % 2 ^ 32
      let x1 := r.x.add (vec.smul (vd + delta2) r.v)
      let n := x1.sub s.pos
      if it.index = 0 then
        some (⟨x1, r.v, numReflections⟩, false)
      else
        some (⟨x1, r.v.sub (vec.smul (2 * n.dot r.v / s.r) n), numReflections⟩, true)

/-- Method `GRModel::iterate`: the updated ray and the returned `bool`. -/
def GRModel.iterate (sqrt : F → F) (m : GRModel F) (r : Ray F) : Ray F × Bool :=
  (m.iterateLoop sqrt r (m.orderSphere sqrt r.x)).getD (r, false)

/-! ## The scan driver's inner loop (`main.cpp`, lines 48-53) -/

/-- Loop `for (k = 0; k < maxstep; ++k) { intersect = gr.iterate(r); if (!intersect) break; }`
with `maxstep` calls left: the ray when the loop is left. -/
def runRay (sqrt : F → F) (m : GRModel F) : Nat → Ray F → Ray F
  | 0, r => r
  | maxstep + 1, r =>
    let res := m.iterate sqrt r
    if res.2 = false then res.1 else runRay sqrt m maxstep res.1

/-! ## The scan driver's grid (`main.cpp`, lines 40-56; `save.hpp`, `struct margs`) -/

/-- Escape radius, `static const double maxRadius = 6`. -/
def maxRadius : F := 6

/-- Sphere radius, `static const double sRadius = 1`. -/
def sRadius : F := 1

/-- Sphere spacing (gap), `static const double sSpacing = 1.000001`. -/
def sSpacing : F := 1.000001

/-- Scene built by `main`: `GRModel gr(maxRadius); gr.init3D(sSpacing, sRadius);`, with the
cosine `c` and sine `s` of the rotation angle `-M_PI_4` as parameters. -/
def mainScene (c s : F) : GRModel F := GRModel.init3D c s (GRModel.new maxRadius) sSpacing sRadius

/-- The planar counterpart: `GRModel gr(maxRadius); gr.init2D(sSpacing, sRadius);`. -/
def mainScene2D : GRModel F := GRModel.init2D (GRModel.new maxRadius) sSpacing sRadius

/-! ## Vocabulary of the statements -/

/-- The `continue` condition of the loop body for candidate `it`. -/
def GRModel.rejects (m : GRModel F) (r : Ray F) (it : SphereOrdering F) : Prop :=
  (m.sphereAt it.index).r * (m.sphereAt it.index).r
      + r.v.dot ((m.sphereAt it.index).pos.sub r.x) * r.v.dot ((m.sphereAt it.index).pos.sub r.x)
      - it.distance * it.distance < 0
    ∨ (r.v.dot ((m.sphereAt it.index).pos.sub r.x) < 0 ∧ it.index ≠ 0)

instance (m : GRModel F) (r : Ray F) (it : SphereOrdering F) : Decidable (m.rejects r it) := by
  unfold GRModel.rejects; infer_instance

/-- Signed travel parameter `vd + delta` of an accepted candidate for sphere `s` at recorded
distance `l`: the root of the intersection equation picked by the loop body. -/
def travel (sqrt : F → F) (r : Ray F) (s : Sphere F) (l : F) : F :=
  r.v.dot (s.pos.sub r.x)
    + (if s.r > l then
        -sqrt (s.r * s.r + r.v.dot (s.pos.sub r.x) * r.v.dot (s.pos.sub r.x) - l * l) * -1
       else -sqrt (s.r * s.r + r.v.dot (s.pos.sub r.x) * r.v.dot (s.pos.sub r.x) - l * l))

/-- Ray after the loop body accepted sphere `s` at recorded distance `l`, the sphere being
the outer one (`outer = true`, direction kept) or a scatterer (direction reflected). -/
def hitRay (sqrt : F → F) (r : Ray F) (s : Sphere F) (l : F) (outer : Bool) : Ray F :=
  let x1 := r.x.add (vec.smul (travel sqrt r s l) r.v)
  ⟨x1, if outer then r.v
       else r.v.sub (vec.smul (2 * (x1.sub s.pos).dot r.v / s.r) (x1.sub s.pos)),
    (r.numReflections + 1) % 2 ^ 32⟩

/-- Specular reflection of the direction `v` at a surface of unit normal `nhat`, in the
words of the glossary: `v' = v − 2(v·n̂)n̂`. -/
def specularReflection (v nhat : vec F) : vec F :=
  v.sub (vec.smul (2 * v.dot nhat) nhat)

/-- Unit outward normal `(x' - C)/|x' - C|` at the point `x'` of a sphere of centre `C`. -/
def unitNormal (sqrt : F → F) (x1 C : vec F) : vec F :=
  vec.smul (1 / (x1.sub C).norm sqrt) (x1.sub C)

/-- Ray after `n` successive calls of `iterate` (whatever they returned). -/
def GRModel.iterates (sqrt : F → F) (m : GRModel F) (n : Nat) (r : Ray F) : Ray F :=
  (fun q => (m.iterate sqrt q).1)^[n] r

/-- Scene in the sense of the physical model: a first sphere centred at the origin, every
later sphere of non-negative radius and contained in the first one, and any two later spheres
with centres at least the sum of their radii apart (stated on squares). -/
def GRModel.wellFormed (m : GRModel F) : Prop :=
  ∃ maxR rest, m.mSphere = ⟨zvec, maxR⟩ :: rest ∧
    (∀ s ∈ rest, 0 ≤ s.r ∧ s.r ≤ maxR ∧ s.pos.squaredNorm ≤ (maxR - s.r) * (maxR - s.r)) ∧
    rest.Pairwise fun s t => (s.r + t.r) * (s.r + t.r) ≤ (s.pos.sub t.pos).squaredNorm

/-- Ray position strictly outside every scatterer and strictly inside the outer sphere. -/
def GRModel.rayInside (m : GRModel F) (x : vec F) : Prop :=
  ∃ b rest, m.mSphere = b :: rest ∧ x.squaredNorm < b.r * b.r ∧ 0 < b.r ∧
    ∀ s ∈ rest, s.r * s.r < (s.pos.sub x).squaredNorm

/-! ## Scenes and rays used as concrete inputs -/

/-- One scatterer of radius `radius` at the origin inside an outer sphere of radius 6. -/
def sceneSingle (radius : F) : GRModel F := (GRModel.new 6).addSphere ⟨0, 0, 0⟩ radius

/-- Ray of end-to-end scenario 1: from `(-3, 0, 0)` along `(1, 0, 0)`. -/
def rayTowards : Ray F := ⟨⟨-3, 0, 0⟩, ⟨1, 0, 0⟩, 0⟩

/-- Ray of end-to-end scenario 2: from `(-3, 0, 0)` along `(-1, 0, 0)`, away from the scene. -/
def rayAway : Ray F := ⟨⟨-3, 0, 0⟩, ⟨-1, 0, 0⟩, 0⟩

/-- Two scatterers of radius 1 centred at `(-2, 0, 0)` and `(2, 0, 0)`, outer radius 6. -/
def scenePair : GRModel F :=
  ((GRModel.new 6).addSphere ⟨-2, 0, 0⟩ 1).addSphere ⟨2, 0, 0⟩ 1

/-- Ray on the line of centres of `scenePair`, between the two scatterers. -/
def rayBetween : Ray F := ⟨⟨1 / 2, 0, 0⟩, ⟨1, 0, 0⟩, 0⟩

/-- A large scatterer (radius 25, centre `(10, 24, 0)`) and a small one (radius 1/2, centre
`(20, 0, 0)`) inside an outer sphere of radius 100. -/
def sceneLargeSmall : GRModel F :=
  ((GRModel.new 100).addSphere ⟨10, 24, 0⟩ 25).addSphere ⟨20, 0, 0⟩ (1 / 2)

/-- Ray from the origin along `(1, 0, 0)`. -/
def rayOrigin : Ray F := ⟨⟨0, 0, 0⟩, ⟨1, 0, 0⟩, 0⟩

/-- Ray from `(0, 2, 0)` along `(1, 0, 0)`, outside an outer sphere of radius 1. -/
def rayOutside : Ray F := ⟨⟨0, 2, 0⟩, ⟨1, 0, 0⟩, 0⟩

/-- Ray from `(7, 0, 0)` along `(1, 0, 0)`: beyond an outer sphere of radius 6 and leaving. -/
def rayBeyond : Ray F := ⟨⟨7, 0, 0⟩, ⟨1, 0, 0⟩, 0⟩

/-- Ray from `(-3/4, 1, 0)` along `(1, 0, 0)`: tangent to the unit sphere at the origin, at
distance `5/4` from its centre (all quantities of the step are binary fractions). -/
def rayGrazing : Ray F := ⟨⟨-3 / 4, 1, 0⟩, ⟨1, 0, 0⟩, 0⟩

end Defs

/-! ## Basic facts -/

section Basic

variable {F : Type} [LinearOrderedField F]

theorem squaredNorm_nonneg (a : vec F) : 0 ≤ a.squaredNorm := by
  unfold vec.squaredNorm vec.dot
  nlinarith [mul_self_nonneg a.x, mul_self_nonneg a.y, mul_self_nonneg a.z]

theorem sortInsert_perm {α : Type} (lt : α → α → Bool) (a : α) (l : List α) :
    (sortInsert lt a l).Perm (a :: l) := by
  induction l with
  | nil => simp [sortInsert]
  | cons b l ih =>
    unfold sortInsert
    split
    · exact (List.Perm.cons b ih).trans (List.Perm.swap a b l)
    · exact List.Perm.refl _

theorem sort_perm {α : Type} (lt : α → α → Bool) (l : List α) : (sort lt l).Perm l := by
  induction l with
  | nil => simp [sort]
  | cons a l ih => exact (sortInsert_perm lt a _).trans (List.Perm.cons a ih)

theorem mem_sort {α : Type} (lt : α → α → Bool) (l : List α) (a : α) :
    a ∈ sort lt l ↔ a ∈ l := (sort_perm lt l).mem_iff

theorem iterateLoop_cons (sqrt : F → F) (m : GRModel F) (r : Ray F) (it : SphereOrdering F)
    (rest : List (SphereOrdering F)) :
    m.iterateLoop sqrt r (it :: rest) =
      if m.rejects r it then m.iterateLoop sqrt r rest
      else some (hitRay sqrt r (m.sphereAt it.index) it.distance (decide (it.index = 0)),
        !decide (it.index = 0)) := by
  by_cases h : m.rejects r it
  · rw [if_pos h]
    unfold GRModel.rejects at h
    rw [GRModel.iterateLoop]
    simp only []
    rw [if_pos h]
  · rw [if_neg h]
    unfold GRModel.rejects at h
    rw [GRModel.iterateLoop]
    simp only []
    rw [if_neg h]
    by_cases h0 : it.index = 0 <;> simp [h0, hitRay, travel]

theorem iterateLoop_append (sqrt : F → F) (m : GRModel F) (r : Ray F)
    (l1 l2 : List (SphereOrdering F)) :
    m.iterateLoop sqrt r (l1 ++ l2) =
      match m.iterateLoop sqrt r l1 with
      | some res => some res
      | none => m.iterateLoop sqrt r l2 := by
  induction l1 with
  | nil => simp [GRModel.iterateLoop]
  | cons it l1 ih =>
    rw [List.cons_append, iterateLoop_cons, iterateLoop_cons]
    by_cases h : m.rejects r it
    · simp only [if_pos h]; exact ih
    · simp only [if_neg h]

theorem iterateLoop_eq_none_iff (sqrt : F → F) (m : GRModel F) (r : Ray F)
    (l : List (SphereOrdering F)) :
    m.iterateLoop sqrt r l = none ↔ ∀ it ∈ l, m.rejects r it := by
  induction l with
  | nil => simp [GRModel.iterateLoop]
  | cons it l ih =>
    rw [iterateLoop_cons]
    by_cases h : m.rejects r it
    · simp [h, ih]
    · simp [h]

/-- The accepted candidate is the first one of the list that the loop body does not reject;
in a list ordered by distance it is a nearest one among those not rejected. -/
theorem iterateLoop_eq_some (sqrt : F → F) (m : GRModel F) (r : Ray F)
    (l : List (SphereOrdering F)) (res : Ray F × Bool)
    (h : m.iterateLoop sqrt r l = some res) :
    ∃ it ∈ l, ¬ m.rejects r it ∧
      res = (hitRay sqrt r (m.sphereAt it.index) it.distance (decide (it.index = 0)),
        !decide (it.index = 0)) ∧
      (l.Pairwise (fun a b => a.distance ≤ b.distance) →
        ∀ c ∈ l, ¬ m.rejects r c → it.distance ≤ c.distance) := by
  induction l with
  | nil => simp [GRModel.iterateLoop] at h
  | cons it l ih =>
    rw [iterateLoop_cons] at h
    by_cases hr : m.rejects r it
    · rw [if_pos hr] at h
      obtain ⟨it1, hmem, hacc, hres, hmin⟩ := ih h
      refine ⟨it1, List.mem_cons_of_mem _ hmem, hacc, hres, ?_⟩
      intro hp c hc hcacc
      rcases List.mem_cons.1 hc with rfl | hc
      · exact absurd hr hcacc
      · exact hmin (List.Pairwise.of_cons hp) c hc hcacc
    · rw [if_neg hr] at h
      refine ⟨it, List.mem_cons_self _ _, hr, (Option.some.inj h).symm, ?_⟩
      intro hp c hc _
      rcases List.mem_cons.1 hc with rfl | hc
      · exact le_refl _
      · exact List.rel_of_pairwise_cons hp hc

theorem sphereAt_of_getElem? (m : GRModel F) (i : Nat) (S : Sphere F)
    (h : m.mSphere[i]? = some S) : m.sphereAt i = S := by
  simp [GRModel.sphereAt, List.getD, h]

/-- Entries of the unsorted candidate list: exactly the scatterers with their index and the
distance of their centre. -/
theorem mem_scattererOrder (sqrt : F → F) (m : GRModel F) (x0 : vec F)
    (c : SphereOrdering F) :
    c ∈ m.scattererOrder sqrt x0 ↔
      ∃ i S, 1 ≤ i ∧ m.mSphere[i]? = some S ∧ c = ⟨i, (S.pos.sub x0).norm sqrt⟩ := by
  unfold GRModel.scattererOrder
  rw [List.mem_map]
  constructor
  · rintro ⟨⟨i, S⟩, hmem, rfl⟩
    rw [List.mk_mem_enumFrom_iff_le_and_getElem?_sub] at hmem
    refine ⟨i, S, hmem.1, ?_, rfl⟩
    obtain ⟨k, rfl⟩ : ∃ k, i = k + 1 := ⟨i - 1, by omega⟩
    have h2 := hmem.2
    simp only [Nat.add_sub_cancel] at h2
    cases hm : m.mSphere with
    | nil => simp [hm] at h2
    | cons b rest => simpa [hm] using h2
  · rintro ⟨i, S, hi, hS, rfl⟩
    refine ⟨(i, S), ?_, rfl⟩
    rw [List.mk_mem_enumFrom_iff_le_and_getElem?_sub]
    refine ⟨hi, ?_⟩
    obtain ⟨k, rfl⟩ : ∃ k, i = k + 1 := ⟨i - 1, by omega⟩
    simp only [Nat.add_sub_cancel]
    cases hm : m.mSphere with
    | nil => simp [hm] at hS
    | cons b rest => simpa [hm] using hS

theorem scattererOrder_index_ne_zero (sqrt : F → F) (m : GRModel F) (x0 : vec F)
    (c : SphereOrdering F) (h : c ∈ sort sphereOrderingDistance (m.scattererOrder sqrt x0)) :
    c.index ≠ 0 := by
  rw [mem_sort, mem_scattererOrder] at h
  obtain ⟨i, S, hi, _, rfl⟩ := h
  simp only; omega

/-- The call `iterate` as a case distinction: the first scatterer candidate that is not
rejected, else the outer sphere, else the fall-through. -/
theorem iterate_eq (sqrt : F → F) (m : GRModel F) (r : Ray F) :
    m.iterate sqrt r =
      match m.iterateLoop sqrt r (sort sphereOrderingDistance (m.scattererOrder sqrt r.x)) with
      | some res => res
      | none =>
        if m.rejects r ⟨0, r.x.norm sqrt⟩ then (r, false)
        else (hitRay sqrt r (m.sphereAt 0) (r.x.norm sqrt) true, false) := by
  unfold GRModel.iterate GRModel.orderSphere
  rw [iterateLoop_append]
  cases hl : m.iterateLoop sqrt r (sort sphereOrderingDistance (m.scattererOrder sqrt r.x)) with
  | some res => simp
  | none =>
    have hnil : m.iterateLoop sqrt r [] = none := rfl
    rw [iterateLoop_cons, hnil]
    by_cases h : m.rejects r ⟨0, r.x.norm sqrt⟩ <;> simp [h]

theorem scatterer_loop_snd (sqrt : F → F) (m : GRModel F) (r : Ray F) (res : Ray F × Bool)
    (h : m.iterateLoop sqrt r (sort sphereOrderingDistance (m.scattererOrder sqrt r.x))
      = some res) : res.2 = true := by
  obtain ⟨it, hmem, _, hres, _⟩ := iterateLoop_eq_some sqrt m r _ res h
  have := scattererOrder_index_ne_zero sqrt m r.x it hmem
  simp [hres, this]

/-- Return value of `iterate`: `true` exactly when some scatterer candidate is not rejected. -/
theorem iterate_snd_eq_true_iff (sqrt : F → F) (m : GRModel F) (r : Ray F) :
    (m.iterate sqrt r).2 = true ↔
      ∃ c ∈ m.scattererOrder sqrt r.x, ¬ m.rejects r c := by
  rw [iterate_eq]
  cases hl : m.iterateLoop sqrt r (sort sphereOrderingDistance (m.scattererOrder sqrt r.x)) with
  | some res =>
    simp only [scatterer_loop_snd sqrt m r res hl, true_iff]
    obtain ⟨it, hmem, hacc, _, _⟩ := iterateLoop_eq_some sqrt m r _ res hl
    exact ⟨it, (mem_sort _ _ _).1 hmem, hacc⟩
  | none =>
    rw [iterateLoop_eq_none_iff] at hl
    have hfalse : (if m.rejects r ⟨0, r.x.norm sqrt⟩ then (r, false)
        else (hitRay sqrt r (m.sphereAt 0) (r.x.norm sqrt) true, false)).2 = false := by
      split <;> rfl
    simp only [hfalse, Bool.false_eq_true, false_iff, not_exists, not_and, not_not]
    intro c hc
    exact hl c ((mem_sort _ _ _).2 hc)

/-- Shape of the result of `iterate`: the ray untouched with `false` (fall-through), or the
ray moved to an accepted sphere, reflected exactly when the call returns `true`. -/
theorem iterate_cases (sqrt : F → F) (m : GRModel F) (r : Ray F) :
    (m.iterateLoop sqrt r (m.orderSphere sqrt r.x) = none ∧ m.iterate sqrt r = (r, false)) ∨
      ∃ S l outer, m.iterate sqrt r = (hitRay sqrt r S l outer, !outer) := by
  unfold GRModel.iterate
  cases hl : m.iterateLoop sqrt r (m.orderSphere sqrt r.x) with
  | none => left; exact ⟨rfl, rfl⟩
  | some res =>
    right
    obtain ⟨it, _, _, hres, _⟩ := iterateLoop_eq_some sqrt m r _ res hl
    exact ⟨m.sphereAt it.index, it.distance, decide (it.index = 0), by simp [hres]⟩

theorem sortInsert_sorted (a : SphereOrdering F) (l : List (SphereOrdering F))
    (h : l.Pairwise fun p q => p.distance ≤ q.distance) :
    (sortInsert sphereOrderingDistance a l).Pairwise fun p q => p.distance ≤ q.distance := by
  induction l with
  | nil => simp [sortInsert]
  | cons b l ih =>
    unfold sortInsert
    by_cases hlt : b.distance < a.distance
    · have hb : sphereOrderingDistance b a = true := by simp [sphereOrderingDistance, hlt]
      rw [if_pos hb]
      refine List.Pairwise.cons ?_ (ih (List.Pairwise.of_cons h))
      intro c hc
      rcases List.mem_cons.1 ((sortInsert_perm _ a l).mem_iff.1 hc) with rfl | hc
      · exact le_of_lt hlt
      · exact List.rel_of_pairwise_cons h hc
    · have hb : ¬ sphereOrderingDistance b a = true := by simp [sphereOrderingDistance, hlt]
      rw [if_neg hb]
      refine List.Pairwise.cons ?_ h
      intro c hc
      rcases List.mem_cons.1 hc with rfl | hc
      · exact not_lt.1 hlt
      · exact le_trans (not_lt.1 hlt) (List.rel_of_pairwise_cons h hc)

theorem sort_sorted (l : List (SphereOrdering F)) :
    (sort sphereOrderingDistance l).Pairwise fun p q => p.distance ≤ q.distance := by
  induction l with
  | nil => simp [sort]
  | cons a l ih => exact sortInsert_sorted a _ ih

theorem iterates_succ (sqrt : F → F) (m : GRModel F) (n : Nat) (r : Ray F) :
    m.iterates sqrt (n + 1) r = (m.iterate sqrt (m.iterates sqrt n r)).1 := by
  unfold GRModel.iterates
  rw [Function.iterate_succ_apply']

theorem iterates_succ_left (sqrt : F → F) (m : GRModel F) (n : Nat) (r : Ray F) :
    m.iterates sqrt (n + 1) r = m.iterates sqrt n (m.iterate sqrt r).1 := by
  unfold GRModel.iterates
  rw [Function.iterate_succ_apply]

theorem apply_mSphere_head (c s : F) (m : GRModel F) (op : SceneOp F) (b : Sphere F)
    (rest : List (Sphere F)) (h : m.mSphere = b :: rest) :
    ∃ rest1, (GRModel.apply c s m op).mSphere = b :: rest1 := by
  cases op <;>
    simp [GRModel.apply, GRModel.init2D, GRModel.init3D, GRModel.addSphere, h]

theorem foldl_apply_head (c s : F) (ops : List (SceneOp F)) (m : GRModel F) (b : Sphere F)
    (rest : List (Sphere F)) (h : m.mSphere = b :: rest) :
    ∃ rest1, (ops.foldl (GRModel.apply c s) m).mSphere = b :: rest1 := by
  induction ops generalizing m rest with
  | nil => exact ⟨rest, h⟩
  | cons op ops ih =>
    obtain ⟨rest1, h1⟩ := apply_mSphere_head c s m op b rest h
    exact ih _ rest1 h1

/-- The first sphere of a built scene is the outer sphere of the constructor. -/
theorem build_head (c s maxR : F) (ops : List (SceneOp F)) :
    ∃ rest, (GRModel.build c s maxR ops).mSphere = ⟨zvec, maxR⟩ :: rest :=
  foldl_apply_head c s ops (GRModel.new maxR) ⟨zvec, maxR⟩ [] rfl

theorem build_append (c s maxR : F) (ops : List (SceneOp F)) (op : SceneOp F) :
    GRModel.build c s maxR (ops ++ [op]) = GRModel.apply c s (GRModel.build c s maxR ops) op := by
  simp [GRModel.build, List.foldl_append]

end Basic

/-! ## Exact real arithmetic -/

section Real

theorem norm_mul_self (a : vec ℝ) : a.norm Real.sqrt * a.norm Real.sqrt = a.squaredNorm :=
  Real.mul_self_sqrt (squaredNorm_nonneg a)

theorem norm_nonneg (a : vec ℝ) : 0 ≤ a.norm Real.sqrt := Real.sqrt_nonneg _

theorem sqrt_eq_of_mul_self (a b : ℝ) (hb : 0 ≤ b) (h : b * b = a) : Real.sqrt a = b := by
  rw [← h]; exact Real.sqrt_mul_self hb

theorem sqrt_four : Real.sqrt 4 = 2 := sqrt_eq_of_mul_self 4 2 (by norm_num) (by norm_num)

theorem sqrt_nine : Real.sqrt 9 = 3 := sqrt_eq_of_mul_self 9 3 (by norm_num) (by norm_num)

theorem sqrt_twentyfive : Real.sqrt 25 = 5 :=
  sqrt_eq_of_mul_self 25 5 (by norm_num) (by norm_num)

theorem sqrt_fortynine : Real.sqrt 49 = 7 :=
  sqrt_eq_of_mul_self 49 7 (by norm_num) (by norm_num)

theorem sqrt_fourhundred : Real.sqrt 400 = 20 :=
  sqrt_eq_of_mul_self 400 20 (by norm_num) (by norm_num)

theorem sqrt_sixhundredseventysix : Real.sqrt 676 = 26 :=
  sqrt_eq_of_mul_self 676 26 (by norm_num) (by norm_num)

/-- From between the two scatterers of `scenePair` the ray hits the right one. -/
theorem scenePair_step_start (k : Nat) :
    (scenePair : GRModel ℝ).iterate Real.sqrt ⟨⟨1 / 2, 0, 0⟩, ⟨1, 0, 0⟩, k⟩
      = (⟨⟨1, 0, 0⟩, ⟨-1, 0, 0⟩, (k + 1) % 2 ^ 32⟩, true) := by
  norm_num [scenePair, GRModel.iterate, GRModel.orderSphere,
    GRModel.scattererOrder, GRModel.new, GRModel.addSphere, sort, sortInsert,
    GRModel.iterateLoop, GRModel.sphereAt, vec.norm, vec.squaredNorm, vec.dot, vec.sub,
    vec.add, vec.smul, zvec, sphereOrderingDistance, sqrt_nine, sqrt_four, sqrt_twentyfive]

/-- From the right scatterer of `scenePair` the ray goes to the left one. -/
theorem scenePair_step_left (k : Nat) :
    (scenePair : GRModel ℝ).iterate Real.sqrt ⟨⟨1, 0, 0⟩, ⟨-1, 0, 0⟩, k⟩
      = (⟨⟨-1, 0, 0⟩, ⟨1, 0, 0⟩, (k + 1) % 2 ^ 32⟩, true) := by
  norm_num [scenePair, GRModel.iterate, GRModel.orderSphere,
    GRModel.scattererOrder, GRModel.new, GRModel.addSphere, sort, sortInsert,
    GRModel.iterateLoop, GRModel.sphereAt, vec.norm, vec.squaredNorm, vec.dot, vec.sub,
    vec.add, vec.smul, zvec, sphereOrderingDistance, sqrt_nine]

/-- From the left scatterer of `scenePair` the ray goes back to the right one. -/
theorem scenePair_step_right (k : Nat) :
    (scenePair : GRModel ℝ).iterate Real.sqrt ⟨⟨-1, 0, 0⟩, ⟨1, 0, 0⟩, k⟩
      = (⟨⟨1, 0, 0⟩, ⟨-1, 0, 0⟩, (k + 1) % 2 ^ 32⟩, true) := by
  norm_num [scenePair, GRModel.iterate, GRModel.orderSphere,
    GRModel.scattererOrder, GRModel.new, GRModel.addSphere, sort, sortInsert,
    GRModel.iterateLoop, GRModel.sphereAt, vec.norm, vec.squaredNorm, vec.dot, vec.sub,
    vec.add, vec.smul, zvec, sphereOrderingDistance, sqrt_nine]

/-- In `sceneLargeSmall` the ray from the origin is sent to the small scatterer. -/
theorem sceneLargeSmall_step :
    (sceneLargeSmall : GRModel ℝ).iterate Real.sqrt rayOrigin
      = (⟨⟨39 / 2, 0, 0⟩, ⟨0, 0, 0⟩, 1⟩, true) := by
  norm_num [sceneLargeSmall, rayOrigin, GRModel.iterate, GRModel.orderSphere,
    GRModel.scattererOrder, GRModel.new, GRModel.addSphere, sort, sortInsert,
    GRModel.iterateLoop, GRModel.sphereAt, vec.norm, vec.squaredNorm, vec.dot, vec.sub,
    vec.add, vec.smul, zvec, sphereOrderingDistance, sqrt_sixhundredseventysix,
    sqrt_fourhundred, sqrt_four]

theorem sqrt_fifteentwentyone : Real.sqrt 1521 = 39 :=
  sqrt_eq_of_mul_self 1521 39 (by norm_num) (by norm_num)

/-- Acceptance test of a scatterer candidate, in terms of `d` and the discriminant. -/
theorem not_rejects_scatterer_iff (m : GRModel ℝ) (r : Ray ℝ) (i : Nat) (S : Sphere ℝ)
    (hi : 1 ≤ i) (hS : m.mSphere[i]? = some S) :
    ¬ m.rejects r ⟨i, (S.pos.sub r.x).norm Real.sqrt⟩ ↔
      0 ≤ r.v.dot (S.pos.sub r.x) ∧
        0 ≤ S.r ^ 2 + (r.v.dot (S.pos.sub r.x)) ^ 2 - (S.pos.sub r.x).squaredNorm := by
  unfold GRModel.rejects
  simp only [sphereAt_of_getElem? m i S hS, norm_mul_self]
  have hi0 : i ≠ 0 := by omega
  push_neg
  constructor
  · rintro ⟨h1, h2⟩
    refine ⟨?_, by nlinarith [h1]⟩
    by_contra hneg
    exact hi0 (h2 (lt_of_not_ge hneg))
  · rintro ⟨h1, h2⟩
    exact ⟨by nlinarith [h2], fun h => absurd h (not_lt.2 h1)⟩

theorem scenePair_wellFormed : (scenePair : GRModel ℝ).wellFormed := by
  refine ⟨6, [⟨⟨-2, 0, 0⟩, 1⟩, ⟨⟨2, 0, 0⟩, 1⟩], ?_, ?_, ?_⟩
  · simp [scenePair, GRModel.new, GRModel.addSphere]
  · intro s hs
    simp only [List.mem_cons, List.mem_singleton, List.not_mem_nil, or_false] at hs
    rcases hs with rfl | rfl <;> norm_num [vec.squaredNorm, vec.dot]
  · simp only [List.pairwise_cons, List.mem_singleton, List.not_mem_nil, forall_eq,
      List.Pairwise.nil, and_true, IsEmpty.forall_iff, implies_true]
    norm_num [vec.squaredNorm, vec.dot, vec.sub]

theorem sceneLargeSmall_wellFormed : (sceneLargeSmall : GRModel ℝ).wellFormed := by
  refine ⟨100, [⟨⟨10, 24, 0⟩, 25⟩, ⟨⟨20, 0, 0⟩, 1 / 2⟩], ?_, ?_, ?_⟩
  · simp [sceneLargeSmall, GRModel.new, GRModel.addSphere]
  · intro s hs
    simp only [List.mem_cons, List.mem_singleton, List.not_mem_nil, or_false] at hs
    rcases hs with rfl | rfl <;> norm_num [vec.squaredNorm, vec.dot]
  · simp only [List.pairwise_cons, List.mem_singleton, List.not_mem_nil, forall_eq,
      List.Pairwise.nil, and_true, IsEmpty.forall_iff, implies_true]
    norm_num [vec.squaredNorm, vec.dot, vec.sub]

end Real

/-! ## The claims -/

/-- C1. In exact real arithmetic `GRModel::iterate` returns `true` if and only if some
scatterer (index `i ≥ 1`, centre `C = S.pos`, radius `R = S.r`) has `d = V·(C - X) ≥ 0` and
`R² + d² - |C - X|² ≥ 0` for the position `X` and direction `V` of the ray on entry; in every
other case it returns `false`. -/
theorem iterate_true_iff_scatterer_ahead (m : GRModel ℝ) (r : Ray ℝ) :
    (m.iterate Real.sqrt r).2 = true ↔
      ∃ i S, 1 ≤ i ∧ m.mSphere[i]? = some S ∧ 0 ≤ r.v.dot (S.pos.sub r.x) ∧
        0 ≤ S.r ^ 2 + (r.v.dot (S.pos.sub r.x)) ^ 2 - (S.pos.sub r.x).squaredNorm := by
  rw [iterate_snd_eq_true_iff]
  constructor
  · rintro ⟨c, hc, hacc⟩
    rw [mem_scattererOrder] at hc
    obtain ⟨i, S, hi, hS, rfl⟩ := hc
    refine ⟨i, S, hi, hS, ?_⟩
    unfold GRModel.rejects at hacc
    simp only [sphereAt_of_getElem? m i S hS, norm_mul_self] at hacc
    push_neg at hacc
    have hi0 : i ≠ 0 := by omega
    refine ⟨?_, ?_⟩
    · by_contra hneg
      exact hi0 (hacc.2 (lt_of_not_ge hneg))
    · nlinarith [hacc.1]
  · rintro ⟨i, S, hi, hS, hd, hdisc⟩
    refine ⟨⟨i, (S.pos.sub r.x).norm Real.sqrt⟩, ?_, ?_⟩
    · rw [mem_scattererOrder]; exact ⟨i, S, hi, hS, rfl⟩
    · unfold GRModel.rejects
      simp only [sphereAt_of_getElem? m i S hS, norm_mul_self]
      push_neg
      refine ⟨by nlinarith [hdisc], fun h => absurd h (not_lt.2 hd)⟩

/-- C2 (the code at the inputs of the claim). A ray aimed directly away from the scene
escapes on the first call, which returns `false` and leaves `numReflections = 1`, not 0; in
scenario 1 the first call reflects (`numReflections = 1`) and the second call, which returns
`false` on the outer sphere, leaves `numReflections = 2`, not 1. -/
theorem iterate_escape_increments_numReflections :
    (sceneSingle (1 : ℝ)).iterate Real.sqrt rayAway = (⟨⟨-6, 0, 0⟩, ⟨-1, 0, 0⟩, 1⟩, false) ∧
    (sceneSingle (1 : ℝ)).iterate Real.sqrt rayTowards
      = (⟨⟨-1, 0, 0⟩, ⟨-1, 0, 0⟩, 1⟩, true) ∧
    (sceneSingle (1 : ℝ)).iterate Real.sqrt ⟨⟨-1, 0, 0⟩, ⟨-1, 0, 0⟩, 1⟩
      = (⟨⟨-6, 0, 0⟩, ⟨-1, 0, 0⟩, 2⟩, false) := by
  refine ⟨?_, ?_, ?_⟩ <;>
  · simp [sceneSingle, rayAway, rayTowards, GRModel.iterate, GRModel.orderSphere,
      GRModel.scattererOrder, GRModel.new, GRModel.addSphere, sort, sortInsert,
      GRModel.iterateLoop, GRModel.sphereAt, vec.norm, vec.squaredNorm, vec.dot, vec.sub,
      vec.add, vec.smul, zvec]
    try norm_num

/-- C3 (the code at a failing input). With a scatterer of radius 2 the unit direction
`(1, 0, 0)` becomes `(-3, 0, 0)` in a call that returns `true`: the squared length goes
from 1 to 9. -/
theorem iterate_radius_two_direction :
    (rayTowards : Ray ℝ).v.squaredNorm = 1 ∧
    (sceneSingle (2 : ℝ)).iterate Real.sqrt rayTowards
      = (⟨⟨-2, 0, 0⟩, ⟨-3, 0, 0⟩, 1⟩, true) ∧
    ((sceneSingle (2 : ℝ)).iterate Real.sqrt rayTowards).1.v.squaredNorm = 9 := by
  have h : (sceneSingle (2 : ℝ)).iterate Real.sqrt rayTowards
      = (⟨⟨-2, 0, 0⟩, ⟨-3, 0, 0⟩, 1⟩, true) := by
    simp [sceneSingle, rayTowards, GRModel.iterate, GRModel.orderSphere,
      GRModel.scattererOrder, GRModel.new, GRModel.addSphere, sort, sortInsert,
      GRModel.iterateLoop, GRModel.sphereAt, vec.norm, vec.squaredNorm, vec.dot, vec.sub,
      vec.add, vec.smul, zvec]
    try norm_num
  refine ⟨?_, h, ?_⟩
  · simp [rayTowards, vec.squaredNorm, vec.dot]
  · rw [h]; simp [vec.squaredNorm, vec.dot]; norm_num

/-- C4 (counterexample). `scenePair` is well-formed and the unit-direction ray `rayBetween`
starts strictly outside both scatterers and strictly inside the outer sphere, yet no call of
the repeated `iterate` returns `false`: the ray bounces for ever between the two scatterers
along their line of centres. -/
theorem trapped_ray_never_escapes :
    (scenePair : GRModel ℝ).wellFormed ∧
    (scenePair : GRModel ℝ).rayInside (rayBetween : Ray ℝ).x ∧
    (rayBetween : Ray ℝ).v.squaredNorm = 1 ∧
    ¬ ∃ n, ((scenePair : GRModel ℝ).iterate Real.sqrt
        ((scenePair : GRModel ℝ).iterates Real.sqrt n rayBetween)).2 = false := by
  refine ⟨scenePair_wellFormed, ?_, ?_, ?_⟩
  · refine ⟨⟨zvec, 6⟩, [⟨⟨-2, 0, 0⟩, 1⟩, ⟨⟨2, 0, 0⟩, 1⟩], ?_, ?_, ?_, ?_⟩
    · simp [scenePair, GRModel.new, GRModel.addSphere]
    · norm_num [rayBetween, vec.squaredNorm, vec.dot]
    · norm_num
    · intro s hs
      simp only [List.mem_cons, List.mem_singleton, List.not_mem_nil, or_false] at hs
      rcases hs with rfl | rfl <;> norm_num [rayBetween, vec.squaredNorm, vec.dot, vec.sub]
  · norm_num [rayBetween, vec.squaredNorm, vec.dot]
  · have key : ∀ n, ∃ k,
        (scenePair : GRModel ℝ).iterates Real.sqrt n rayBetween = ⟨⟨1 / 2, 0, 0⟩, ⟨1, 0, 0⟩, k⟩ ∨
        (scenePair : GRModel ℝ).iterates Real.sqrt n rayBetween = ⟨⟨1, 0, 0⟩, ⟨-1, 0, 0⟩, k⟩ ∨
        (scenePair : GRModel ℝ).iterates Real.sqrt n rayBetween
          = ⟨⟨-1, 0, 0⟩, ⟨1, 0, 0⟩, k⟩ := by
      intro n
      induction n with
      | zero => exact ⟨0, Or.inl rfl⟩
      | succ n ih =>
        obtain ⟨k, h | h | h⟩ := ih
        · exact ⟨(k + 1) % 2 ^ 32, Or.inr (Or.inl (by
            rw [iterates_succ, h, scenePair_step_start]))⟩
        · exact ⟨(k + 1) % 2 ^ 32, Or.inr (Or.inr (by
            rw [iterates_succ, h, scenePair_step_left]))⟩
        · exact ⟨(k + 1) % 2 ^ 32, Or.inr (Or.inl (by
            rw [iterates_succ, h, scenePair_step_right]))⟩
    rintro ⟨n, hn⟩
    obtain ⟨k, h | h | h⟩ := key n
    · rw [h, scenePair_step_start] at hn; exact absurd hn (by simp)
    · rw [h, scenePair_step_left] at hn; exact absurd hn (by simp)
    · rw [h, scenePair_step_right] at hn; exact absurd hn (by simp)

/-- C4 (amended). The loop of the scan driver bounds the calls: for a step budget `maxstep`
it leaves the ray after some `n ≤ maxstep` calls of `iterate`, every call but the last one
returned `true`, and it stops before the budget is used up only after a call that returned
`false`. -/
theorem runRay_bounded {F : Type} [LinearOrderedField F] (sqrt : F → F) (m : GRModel F)
    (maxstep : Nat) (r : Ray F) :
    ∃ n, n ≤ maxstep ∧ runRay sqrt m maxstep r = m.iterates sqrt n r ∧
      (∀ k, k + 1 < n → (m.iterate sqrt (m.iterates sqrt k r)).2 = true) ∧
      (n < maxstep → ∃ k, k + 1 = n ∧ (m.iterate sqrt (m.iterates sqrt k r)).2 = false) := by
  induction maxstep generalizing r with
  | zero => exact ⟨0, le_refl _, rfl, fun k hk => absurd hk (by omega), fun h => absurd h (by omega)⟩
  | succ maxstep ih =>
    by_cases hres : (m.iterate sqrt r).2 = false
    · refine ⟨1, by omega, ?_, fun k hk => absurd hk (by omega), fun _ => ⟨0, rfl, hres⟩⟩
      rw [runRay, if_pos hres]
      rfl
    · obtain ⟨n, hn, hrun, htrue, hstop⟩ := ih (m.iterate sqrt r).1
      refine ⟨n + 1, by omega, ?_, ?_, ?_⟩
      · rw [runRay, if_neg hres, hrun, iterates_succ_left]
      · intro k hk
        cases k with
        | zero => simpa using hres
        | succ k =>
          rw [iterates_succ_left]
          exact htrue k (by omega)
      · intro hlt
        obtain ⟨k, hk, hfalse⟩ := hstop (by omega)
        exact ⟨k + 1, by omega, by rw [iterates_succ_left]; exact hfalse⟩

/-- C5 (counterexample). In the well-formed scene `sceneLargeSmall` the unit-direction ray
from the origin meets the surface of the large scatterer (index 1) after a forward distance
`d - sqrt disc = 3`, but the call reflects it off the small scatterer, whose centre is
nearer, after travelling `39/2`. -/
theorem nearest_centre_not_first_hit :
    (sceneLargeSmall : GRModel ℝ).wellFormed ∧
    (sceneLargeSmall : GRModel ℝ).rayInside (rayOrigin : Ray ℝ).x ∧
    (rayOrigin : Ray ℝ).v.squaredNorm = 1 ∧
    ((sceneLargeSmall : GRModel ℝ).iterate Real.sqrt rayOrigin).2 = true ∧
    ∃ i S, 1 ≤ i ∧ (sceneLargeSmall : GRModel ℝ).mSphere[i]? = some S ∧
      0 ≤ (rayOrigin : Ray ℝ).v.dot (S.pos.sub rayOrigin.x) ∧
      0 ≤ S.r ^ 2 + ((rayOrigin : Ray ℝ).v.dot (S.pos.sub rayOrigin.x)) ^ 2
            - (S.pos.sub rayOrigin.x).squaredNorm ∧
      (rayOrigin : Ray ℝ).v.dot (S.pos.sub rayOrigin.x)
          - Real.sqrt (S.r ^ 2 + ((rayOrigin : Ray ℝ).v.dot (S.pos.sub rayOrigin.x)) ^ 2
              - (S.pos.sub rayOrigin.x).squaredNorm)
        < ((((sceneLargeSmall : GRModel ℝ).iterate Real.sqrt rayOrigin).1.x.sub
            rayOrigin.x).norm Real.sqrt) := by
  refine ⟨sceneLargeSmall_wellFormed, ?_, ?_, ?_, ?_⟩
  · refine ⟨⟨zvec, 100⟩, [⟨⟨10, 24, 0⟩, 25⟩, ⟨⟨20, 0, 0⟩, 1 / 2⟩], ?_, ?_, ?_, ?_⟩
    · simp [sceneLargeSmall, GRModel.new, GRModel.addSphere]
    · norm_num [rayOrigin, vec.squaredNorm, vec.dot]
    · norm_num
    · intro s hs
      simp only [List.mem_cons, List.mem_singleton, List.not_mem_nil, or_false] at hs
      rcases hs with rfl | rfl <;> norm_num [rayOrigin, vec.squaredNorm, vec.dot, vec.sub]
  · norm_num [rayOrigin, vec.squaredNorm, vec.dot]
  · rw [sceneLargeSmall_step]
  · refine ⟨1, ⟨⟨10, 24, 0⟩, 25⟩, le_refl _, ?_, ?_, ?_, ?_⟩
    · simp [sceneLargeSmall, GRModel.new, GRModel.addSphere]
    · norm_num [rayOrigin, vec.dot, vec.sub]
    · norm_num [rayOrigin, vec.dot, vec.sub, vec.squaredNorm]
    · rw [sceneLargeSmall_step]
      norm_num [rayOrigin, vec.dot, vec.sub, vec.squaredNorm, vec.norm, sqrt_fortynine,
        sqrt_fifteentwentyone, sqrt_four]

/-- C5 (amended). Whenever `iterate` returns `true`, the sphere it reflects off is a
scatterer with `d ≥ 0` and `disc ≥ 0` whose centre is nearest to the ray position among all
scatterers with `d ≥ 0` and `disc ≥ 0`; the new ray is the one the loop body computes for
that sphere. -/
theorem iterate_true_hits_nearest_centre (m : GRModel ℝ) (r : Ray ℝ)
    (h : (m.iterate Real.sqrt r).2 = true) :
    ∃ i S, 1 ≤ i ∧ m.mSphere[i]? = some S ∧
      0 ≤ r.v.dot (S.pos.sub r.x) ∧
      0 ≤ S.r ^ 2 + (r.v.dot (S.pos.sub r.x)) ^ 2 - (S.pos.sub r.x).squaredNorm ∧
      (m.iterate Real.sqrt r).1 = hitRay Real.sqrt r S ((S.pos.sub r.x).norm Real.sqrt) false ∧
      ∀ j T, 1 ≤ j → m.mSphere[j]? = some T →
        0 ≤ r.v.dot (T.pos.sub r.x) →
        0 ≤ T.r ^ 2 + (r.v.dot (T.pos.sub r.x)) ^ 2 - (T.pos.sub r.x).squaredNorm →
        (S.pos.sub r.x).norm Real.sqrt ≤ (T.pos.sub r.x).norm Real.sqrt := by
  rw [iterate_eq] at h ⊢
  cases hl : m.iterateLoop Real.sqrt r
      (sort sphereOrderingDistance (m.scattererOrder Real.sqrt r.x)) with
  | none =>
    rw [hl] at h
    simp only at h
    split at h <;> simp at h
  | some res =>
    obtain ⟨it, hmem, hacc, hres, hmin⟩ := iterateLoop_eq_some Real.sqrt m r _ res hl
    have hmem1 := (mem_sort _ _ _).1 hmem
    rw [mem_scattererOrder] at hmem1
    obtain ⟨i, S, hi, hS, rfl⟩ := hmem1
    have hacc1 := (not_rejects_scatterer_iff m r i S hi hS).1 hacc
    have hi0 : i ≠ 0 := by omega
    refine ⟨i, S, hi, hS, hacc1.1, hacc1.2, ?_, ?_⟩
    · simp only [hres, sphereAt_of_getElem? m i S hS, hi0, decide_False]
    · intro j T hj hT hd hdisc
      have hc : (⟨j, (T.pos.sub r.x).norm Real.sqrt⟩ : SphereOrdering ℝ) ∈
          sort sphereOrderingDistance (m.scattererOrder Real.sqrt r.x) := by
        rw [mem_sort, mem_scattererOrder]; exact ⟨j, T, hj, hT, rfl⟩
      exact hmin (sort_sorted _) _ hc ((not_rejects_scatterer_iff m r j T hj hT).2 ⟨hd, hdisc⟩)

/-- Witness for C5 (amended): the call on `rayOrigin` in `sceneLargeSmall` returns `true`. -/
theorem iterate_true_hits_nearest_centre_witness :
    ((sceneLargeSmall : GRModel ℝ).iterate Real.sqrt rayOrigin).2 = true ∧
    ∃ i S, 1 ≤ i ∧ (sceneLargeSmall : GRModel ℝ).mSphere[i]? = some S ∧
      0 ≤ (rayOrigin : Ray ℝ).v.dot (S.pos.sub rayOrigin.x) ∧
      0 ≤ S.r ^ 2 + ((rayOrigin : Ray ℝ).v.dot (S.pos.sub rayOrigin.x)) ^ 2
            - (S.pos.sub rayOrigin.x).squaredNorm ∧
      ((sceneLargeSmall : GRModel ℝ).iterate Real.sqrt rayOrigin).1
        = hitRay Real.sqrt rayOrigin S ((S.pos.sub rayOrigin.x).norm Real.sqrt) false ∧
      ∀ j T, 1 ≤ j → (sceneLargeSmall : GRModel ℝ).mSphere[j]? = some T →
        0 ≤ (rayOrigin : Ray ℝ).v.dot (T.pos.sub rayOrigin.x) →
        0 ≤ T.r ^ 2 + ((rayOrigin : Ray ℝ).v.dot (T.pos.sub rayOrigin.x)) ^ 2
              - (T.pos.sub rayOrigin.x).squaredNorm →
        (S.pos.sub rayOrigin.x).norm Real.sqrt ≤ (T.pos.sub rayOrigin.x).norm Real.sqrt :=
  ⟨by rw [sceneLargeSmall_step],
    iterate_true_hits_nearest_centre sceneLargeSmall rayOrigin (by rw [sceneLargeSmall_step])⟩

/-- C6. For a scene with `N ≥ 1` spheres `orderSphere` produces `N` candidates; the last one
is the outer sphere (index 0, distance `|x0|`), whatever its distance; the first `N - 1`
carry a permutation of the indices `1 .. N-1`, each with the distance from `x0` to the centre
of its sphere, in non-decreasing order of distance. -/
theorem orderSphere_spec {F : Type} [LinearOrderedField F] (sqrt : F → F) (m : GRModel F)
    (x0 : vec F) (hN : 1 ≤ m.mSphere.length) :
    (m.orderSphere sqrt x0).length = m.mSphere.length ∧
    (m.orderSphere sqrt x0).getLast? = some ⟨0, x0.norm sqrt⟩ ∧
    ((m.orderSphere sqrt x0).dropLast.map SphereOrdering.index).Perm
      (List.range' 1 (m.mSphere.length - 1)) ∧
    (∀ c ∈ (m.orderSphere sqrt x0).dropLast,
      ∃ S, m.mSphere[c.index]? = some S ∧ c.distance = (S.pos.sub x0).norm sqrt) ∧
    (m.orderSphere sqrt x0).dropLast.Pairwise (fun a b => a.distance ≤ b.distance) := by
  have hdrop : (m.orderSphere sqrt x0).dropLast
      = sort sphereOrderingDistance (m.scattererOrder sqrt x0) := by
    unfold GRModel.orderSphere
    exact List.dropLast_concat
  have hlen : (m.scattererOrder sqrt x0).length = m.mSphere.length - 1 := by
    simp [GRModel.scattererOrder]
  refine ⟨?_, ?_, ?_, ?_, ?_⟩
  · unfold GRModel.orderSphere
    rw [List.length_append, (sort_perm _ _).length_eq, hlen]
    simp only [List.length_singleton]
    omega
  · unfold GRModel.orderSphere
    simp
  · rw [hdrop]
    refine ((sort_perm _ _).map _).trans ?_
    unfold GRModel.scattererOrder
    rw [List.map_map]
    have hfun : (SphereOrdering.index ∘ fun p : Nat × Sphere F =>
        (⟨p.1, (p.2.pos.sub x0).norm sqrt⟩ : SphereOrdering F)) = Prod.fst := rfl
    rw [hfun, List.enumFrom_map_fst, List.length_tail]
  · rw [hdrop]
    intro c hc
    rw [mem_sort, mem_scattererOrder] at hc
    obtain ⟨i, S, _, hS, rfl⟩ := hc
    exact ⟨S, hS, rfl⟩
  · rw [hdrop]
    exact sort_sorted _

/-- Witness for C6: the scene of scenario 1 has two spheres. -/
theorem orderSphere_spec_witness :
    1 ≤ (sceneSingle (1 : ℝ)).mSphere.length ∧
    ((sceneSingle (1 : ℝ)).orderSphere Real.sqrt (rayTowards : Ray ℝ).x).length
        = (sceneSingle (1 : ℝ)).mSphere.length ∧
    ((sceneSingle (1 : ℝ)).orderSphere Real.sqrt (rayTowards : Ray ℝ).x).getLast?
        = some ⟨0, (rayTowards : Ray ℝ).x.norm Real.sqrt⟩ ∧
    (((sceneSingle (1 : ℝ)).orderSphere Real.sqrt (rayTowards : Ray ℝ).x).dropLast.map
        SphereOrdering.index).Perm (List.range' 1 ((sceneSingle (1 : ℝ)).mSphere.length - 1)) ∧
    (∀ c ∈ ((sceneSingle (1 : ℝ)).orderSphere Real.sqrt (rayTowards : Ray ℝ).x).dropLast,
      ∃ S, (sceneSingle (1 : ℝ)).mSphere[c.index]? = some S ∧
        c.distance = (S.pos.sub (rayTowards : Ray ℝ).x).norm Real.sqrt) ∧
    ((sceneSingle (1 : ℝ)).orderSphere Real.sqrt (rayTowards : Ray ℝ).x).dropLast.Pairwise
      (fun a b => a.distance ≤ b.distance) :=
  ⟨by simp [sceneSingle, GRModel.new, GRModel.addSphere],
    orderSphere_spec Real.sqrt (sceneSingle 1) rayTowards.x
      (by simp [sceneSingle, GRModel.new, GRModel.addSphere])⟩

/-- C7. For a scene built by `GRModel(maxR)` and any construction calls, and a ray with
`|x| ≤ maxR` (any direction), the outer sphere is tested last, its discriminant is
non-negative, the loop body does not reject it, and so the loop of `iterate` accepts some
candidate: the `return false` after the loop is not reached. -/
theorem outer_sphere_accepted (c s maxR : ℝ) (ops : List (SceneOp ℝ)) (r : Ray ℝ)
    (h : r.x.norm Real.sqrt ≤ maxR) :
    ((GRModel.build c s maxR ops).orderSphere Real.sqrt r.x).getLast?
      = some ⟨0, r.x.norm Real.sqrt⟩ ∧
    (GRModel.build c s maxR ops).sphereAt 0 = ⟨zvec, maxR⟩ ∧
    0 ≤ maxR * maxR + r.v.dot ((zvec : vec ℝ).sub r.x) * r.v.dot ((zvec : vec ℝ).sub r.x)
        - r.x.norm Real.sqrt * r.x.norm Real.sqrt ∧
    ¬ (GRModel.build c s maxR ops).rejects r ⟨0, r.x.norm Real.sqrt⟩ ∧
    (GRModel.build c s maxR ops).iterateLoop Real.sqrt r
      ((GRModel.build c s maxR ops).orderSphere Real.sqrt r.x) ≠ none := by
  obtain ⟨rest, hrest⟩ := build_head c s maxR ops
  have h0 : (GRModel.build c s maxR ops).sphereAt 0 = ⟨zvec, maxR⟩ :=
    sphereAt_of_getElem? _ 0 _ (by simp [hrest])
  have hdisc : 0 ≤ maxR * maxR
      + r.v.dot ((zvec : vec ℝ).sub r.x) * r.v.dot ((zvec : vec ℝ).sub r.x)
      - r.x.norm Real.sqrt * r.x.norm Real.sqrt := by
    nlinarith [norm_nonneg r.x, mul_self_nonneg (r.v.dot ((zvec : vec ℝ).sub r.x))]
  have hacc : ¬ (GRModel.build c s maxR ops).rejects r ⟨0, r.x.norm Real.sqrt⟩ := by
    unfold GRModel.rejects
    simp only [h0]
    push_neg
    exact ⟨hdisc, fun _ => rfl⟩
  refine ⟨by simp [GRModel.orderSphere], h0, hdisc, hacc, ?_⟩
  intro hnone
  rw [iterateLoop_eq_none_iff] at hnone
  exact hacc (hnone _ (by simp [GRModel.orderSphere]))

/-- Witness for C7: the ray of scenario 1 lies inside the outer sphere of radius 6. -/
theorem outer_sphere_accepted_witness :
    (rayTowards : Ray ℝ).x.norm Real.sqrt ≤ 6 ∧
    ((GRModel.build 0 1 6 [SceneOp.addSphere ⟨0, 0, 0⟩ 1]).orderSphere Real.sqrt
        (rayTowards : Ray ℝ).x).getLast? = some ⟨0, (rayTowards : Ray ℝ).x.norm Real.sqrt⟩ ∧
    (GRModel.build 0 1 6 [SceneOp.addSphere ⟨0, 0, 0⟩ 1]).sphereAt 0 = ⟨zvec, (6 : ℝ)⟩ ∧
    0 ≤ (6 : ℝ) * 6
        + (rayTowards : Ray ℝ).v.dot ((zvec : vec ℝ).sub rayTowards.x)
          * (rayTowards : Ray ℝ).v.dot ((zvec : vec ℝ).sub rayTowards.x)
        - (rayTowards : Ray ℝ).x.norm Real.sqrt * (rayTowards : Ray ℝ).x.norm Real.sqrt ∧
    ¬ (GRModel.build 0 1 6 [SceneOp.addSphere ⟨0, 0, 0⟩ 1]).rejects (rayTowards : Ray ℝ)
        ⟨0, (rayTowards : Ray ℝ).x.norm Real.sqrt⟩ ∧
    (GRModel.build 0 1 6 [SceneOp.addSphere ⟨0, 0, 0⟩ 1]).iterateLoop Real.sqrt
      (rayTowards : Ray ℝ)
      ((GRModel.build 0 1 6 [SceneOp.addSphere ⟨0, 0, 0⟩ 1]).orderSphere Real.sqrt
        (rayTowards : Ray ℝ).x) ≠ none :=
  ⟨by norm_num [rayTowards, vec.norm, vec.squaredNorm, vec.dot, sqrt_nine],
    outer_sphere_accepted 0 1 6 [SceneOp.addSphere ⟨0, 0, 0⟩ 1] rayTowards
      (by norm_num [rayTowards, vec.norm, vec.squaredNorm, vec.dot, sqrt_nine])⟩

/-- C8. A call of `iterate` that returns `false` leaves the direction `v` unchanged, whether
the outer sphere was accepted or no candidate was; when no candidate is accepted the
position is unchanged as well. -/
theorem iterate_false_keeps_direction {F : Type} [LinearOrderedField F] (sqrt : F → F)
    (m : GRModel F) (r : Ray F) (h : (m.iterate sqrt r).2 = false) :
    (m.iterate sqrt r).1.v = r.v ∧
    (m.iterateLoop sqrt r (m.orderSphere sqrt r.x) = none → (m.iterate sqrt r).1.x = r.x) := by
  constructor
  · rcases iterate_cases sqrt m r with ⟨_, hfall⟩ | ⟨S, l, outer, hhit⟩
    · rw [hfall]
    · rw [hhit] at h ⊢
      cases outer with
      | true => rfl
      | false => simp at h
  · intro hnone
    unfold GRModel.iterate
    rw [hnone]
    rfl

/-- Witness for C8: a ray outside an outer sphere of radius 1 and aimed past it; no
candidate is accepted and the call returns `false`. -/
theorem iterate_false_keeps_direction_witness :
    ((GRModel.new (1 : ℝ)).iterate Real.sqrt rayOutside).2 = false ∧
    (GRModel.new (1 : ℝ)).iterateLoop Real.sqrt rayOutside
      ((GRModel.new (1 : ℝ)).orderSphere Real.sqrt (rayOutside : Ray ℝ).x) = none ∧
    ((GRModel.new (1 : ℝ)).iterate Real.sqrt rayOutside).1.v = (rayOutside : Ray ℝ).v ∧
    ((GRModel.new (1 : ℝ)).iterateLoop Real.sqrt rayOutside
      ((GRModel.new (1 : ℝ)).orderSphere Real.sqrt (rayOutside : Ray ℝ).x) = none →
      ((GRModel.new (1 : ℝ)).iterate Real.sqrt rayOutside).1.x = (rayOutside : Ray ℝ).x) :=
  ⟨by norm_num [rayOutside, GRModel.iterate, GRModel.orderSphere, GRModel.scattererOrder,
      GRModel.new, sort, GRModel.iterateLoop, GRModel.sphereAt, vec.norm, vec.squaredNorm,
      vec.dot, vec.sub, zvec],
    by norm_num [rayOutside, GRModel.orderSphere, GRModel.scattererOrder,
      GRModel.new, sort, GRModel.iterateLoop, GRModel.sphereAt, vec.norm, vec.squaredNorm,
      vec.dot, vec.sub, zvec],
    iterate_false_keeps_direction Real.sqrt (GRModel.new 1) rayOutside
      (by norm_num [rayOutside, GRModel.iterate, GRModel.orderSphere, GRModel.scattererOrder,
        GRModel.new, sort, GRModel.iterateLoop, GRModel.sphereAt, vec.norm, vec.squaredNorm,
        vec.dot, vec.sub, zvec])⟩

/-- C9. As long as the 32-bit counter does not wrap around, a call of `iterate` that
returns `true` increases `numReflections` by exactly 1, and no call decreases it. -/
theorem iterate_numReflections {F : Type} [LinearOrderedField F] (sqrt : F → F)
    (m : GRModel F) (r : Ray F) (hno : r.numReflections + 1 < 2 ^ 32) :
    ((m.iterate sqrt r).2 = true →
      (m.iterate sqrt r).1.numReflections = r.numReflections + 1) ∧
    r.numReflections ≤ (m.iterate sqrt r).1.numReflections := by
  rcases iterate_cases sqrt m r with ⟨_, hfall⟩ | ⟨S, l, outer, hhit⟩
  · rw [hfall]
    exact ⟨fun h => absurd h (by simp), le_refl _⟩
  · rw [hhit]
    have hcount : (hitRay sqrt r S l outer).numReflections = r.numReflections + 1 := by
      simp only [hitRay]
      exact Nat.mod_eq_of_lt hno
    exact ⟨fun _ => hcount, by rw [hcount]; omega⟩

/-- Witness for C9: the first call of scenario 1 returns `true` with a fresh counter. -/
theorem iterate_numReflections_witness :
    (rayTowards : Ray ℝ).numReflections + 1 < 2 ^ 32 ∧
    ((sceneSingle (1 : ℝ)).iterate Real.sqrt rayTowards).2 = true ∧
    (((sceneSingle (1 : ℝ)).iterate Real.sqrt rayTowards).2 = true →
      ((sceneSingle (1 : ℝ)).iterate Real.sqrt rayTowards).1.numReflections
        = (rayTowards : Ray ℝ).numReflections + 1) ∧
    (rayTowards : Ray ℝ).numReflections
      ≤ ((sceneSingle (1 : ℝ)).iterate Real.sqrt rayTowards).1.numReflections :=
  ⟨by simp [rayTowards],
    by norm_num [sceneSingle, rayTowards, GRModel.iterate, GRModel.orderSphere,
      GRModel.scattererOrder, GRModel.new, GRModel.addSphere, sort, sortInsert,
      GRModel.iterateLoop, GRModel.sphereAt, vec.norm, vec.squaredNorm, vec.dot, vec.sub,
      vec.add, vec.smul, zvec, sqrt_nine],
    iterate_numReflections Real.sqrt (sceneSingle 1) rayTowards (by simp [rayTowards])⟩

/-- C10. After `GRModel(maxR)` and any sequence of `addSphere`, `init2D` and `init3D` calls
the sphere list is non-empty and starts with the outer sphere (centre at the origin, radius
`maxR`); one more call leaves the spheres already there in place and appends at the back:
`addSphere` the given sphere, `init2D` exactly 3 scatterers and `init3D` exactly 4, each
with the given radius. -/
theorem build_invariant {F : Type} [LinearOrderedField F] (c s maxR : F)
    (ops : List (SceneOp F)) :
    (GRModel.build c s maxR ops).mSphere ≠ [] ∧
    (GRModel.build c s maxR ops).mSphere[0]? = some ⟨zvec, maxR⟩ ∧
    (∀ p R, (GRModel.build c s maxR (ops ++ [SceneOp.addSphere p R])).mSphere
      = (GRModel.build c s maxR ops).mSphere ++ [⟨p, R⟩]) ∧
    (∀ sp R, (GRModel.build c s maxR (ops ++ [SceneOp.init2D sp R])).mSphere
      = (GRModel.build c s maxR ops).mSphere
        ++ [⟨vec.smul sp s1gr2d, R⟩, ⟨vec.smul sp s2gr2d, R⟩, ⟨vec.smul sp s3gr2d, R⟩]) ∧
    (∀ sp R, (GRModel.build c s maxR (ops ++ [SceneOp.init3D sp R])).mSphere
      = (GRModel.build c s maxR ops).mSphere
        ++ [⟨vec.smul sp (rotY c s s1gr3d), R⟩, ⟨vec.smul sp (rotY c s s2gr3d), R⟩,
            ⟨vec.smul sp (rotY c s s3gr3d), R⟩, ⟨vec.smul sp (rotY c s s4gr3d), R⟩]) := by
  obtain ⟨rest, hrest⟩ := build_head c s maxR ops
  refine ⟨by simp [hrest], by simp [hrest], ?_, ?_, ?_⟩
  · intro p R
    rw [build_append]
    rfl
  · intro sp R
    rw [build_append]
    simp [GRModel.apply, GRModel.init2D, GRModel.addSphere]
  · intro sp R
    rw [build_append]
    simp [GRModel.apply, GRModel.init3D, GRModel.addSphere]

/-! ## Further facts -/

section Driver

variable {F : Type} [LinearOrderedField F]

theorem iterate_numReflections_le (sqrt : F → F) (m : GRModel F) (r : Ray F) :
    (m.iterate sqrt r).1.numReflections ≤ r.numReflections + 1 := by
  rcases iterate_cases sqrt m r with ⟨_, hfall⟩ | ⟨S, l, outer, hhit⟩
  · rw [hfall]; exact Nat.le_succ _
  · rw [hhit]
    simp only [hitRay]
    exact Nat.mod_le _ _

theorem runRay_numReflections_le (sqrt : F → F) (m : GRModel F) (maxstep : Nat) (r : Ray F) :
    (runRay sqrt m maxstep r).numReflections ≤ r.numReflections + maxstep := by
  induction maxstep generalizing r with
  | zero => exact le_refl _
  | succ maxstep ih =>
    have h1 := iterate_numReflections_le sqrt m r
    rw [runRay]
    split
    · omega
    · have h2 := ih (m.iterate sqrt r).1
      omega

end Driver

section Grid

variable {F : Type}

end Grid

/-- C11. For every scene, every initial ray with `numReflections = 0` and every step budget
`maxstep`, the per-ray loop of the scan driver ends with `numReflections ≤ maxstep`. -/
theorem runRay_numReflections_le_maxstep {F : Type} [LinearOrderedField F] (sqrt : F → F)
    (m : GRModel F) (maxstep : Nat) (x v : vec F) :
    (runRay sqrt m maxstep ⟨x, v, 0⟩).numReflections ≤ maxstep := by
  have h := runRay_numReflections_le sqrt m maxstep ⟨x, v, 0⟩
  simpa using h

theorem travel_sub_sq (r : Ray ℝ) (S : Sphere ℝ) (l : ℝ)
    (hdisc : 0 ≤ S.r * S.r + r.v.dot (S.pos.sub r.x) * r.v.dot (S.pos.sub r.x) - l * l) :
    (travel Real.sqrt r S l - r.v.dot (S.pos.sub r.x))
        * (travel Real.sqrt r S l - r.v.dot (S.pos.sub r.x))
      = S.r * S.r + r.v.dot (S.pos.sub r.x) * r.v.dot (S.pos.sub r.x) - l * l := by
  have hq := Real.mul_self_sqrt hdisc
  unfold travel
  split <;> linear_combination hq

theorem hit_position_expand {F : Type} [LinearOrderedField F] (x v C : vec F) (t : F) :
    ((x.add (vec.smul t v)).sub C).squaredNorm
      = t * t * v.squaredNorm - 2 * t * v.dot (C.sub x) + (C.sub x).squaredNorm := by
  simp only [vec.squaredNorm, vec.dot, vec.sub, vec.add, vec.smul]
  ring

theorem hitRay_on_surface (r : Ray ℝ) (S : Sphere ℝ) (l : ℝ) (outer : Bool)
    (hv : r.v.squaredNorm = 1) (hl : l * l = (S.pos.sub r.x).squaredNorm)
    (hdisc : 0 ≤ S.r * S.r + r.v.dot (S.pos.sub r.x) * r.v.dot (S.pos.sub r.x) - l * l) :
    ((hitRay Real.sqrt r S l outer).x.sub S.pos).squaredNorm = S.r * S.r := by
  have ht := travel_sub_sq r S l hdisc
  simp only [hitRay]
  rw [hit_position_expand, hv, ← hl]
  linear_combination ht

/-- The accepted candidate of a call whose loop does not fall through. -/
theorem iterate_accepts {F : Type} [LinearOrderedField F] (sqrt : F → F) (m : GRModel F)
    (r : Ray F) (h : m.iterateLoop sqrt r (m.orderSphere sqrt r.x) ≠ none) :
    ∃ it ∈ m.orderSphere sqrt r.x, ¬ m.rejects r it ∧
      m.iterate sqrt r
        = (hitRay sqrt r (m.sphereAt it.index) it.distance (decide (it.index = 0)),
            !decide (it.index = 0)) := by
  cases hl : m.iterateLoop sqrt r (m.orderSphere sqrt r.x) with
  | none => exact absurd hl h
  | some res =>
    obtain ⟨it, hmem, hacc, hres, _⟩ := iterateLoop_eq_some sqrt m r _ res hl
    refine ⟨it, hmem, hacc, ?_⟩
    unfold GRModel.iterate
    rw [hl, hres]
    rfl

theorem mem_orderSphere {F : Type} [LinearOrderedField F] (sqrt : F → F) (m : GRModel F)
    (x0 : vec F) (c : SphereOrdering F) :
    c ∈ m.orderSphere sqrt x0 ↔
      (∃ i S, 1 ≤ i ∧ m.mSphere[i]? = some S ∧ c = ⟨i, (S.pos.sub x0).norm sqrt⟩)
        ∨ c = ⟨0, x0.norm sqrt⟩ := by
  unfold GRModel.orderSphere
  rw [List.mem_append, mem_sort, mem_scattererOrder, List.mem_singleton]

theorem squaredNorm_zvec_sub {F : Type} [LinearOrderedField F] (x : vec F) :
    ((zvec : vec F).sub x).squaredNorm = x.squaredNorm := by
  simp only [vec.squaredNorm, vec.dot, vec.sub, zvec]
  ring

/-- In a built scene every candidate carries the distance from the ray to the centre of its
sphere (on squares, in exact real arithmetic). -/
theorem candidate_distance (c s maxR : ℝ) (ops : List (SceneOp ℝ)) (x0 : vec ℝ)
    (it : SphereOrdering ℝ)
    (h : it ∈ (GRModel.build c s maxR ops).orderSphere Real.sqrt x0) :
    ∃ S, (GRModel.build c s maxR ops).mSphere[it.index]? = some S ∧
      (it.index = 0 → S = ⟨zvec, maxR⟩) ∧
      it.distance * it.distance = (S.pos.sub x0).squaredNorm := by
  rw [mem_orderSphere] at h
  rcases h with ⟨i, S, hi, hS, rfl⟩ | rfl
  · exact ⟨S, hS, fun h0 => absurd h0 (by simp only; omega), norm_mul_self _⟩
  · obtain ⟨rest, hrest⟩ := build_head c s maxR ops
    refine ⟨⟨zvec, maxR⟩, by simp [hrest], fun _ => rfl, ?_⟩
    simp only [norm_mul_self, squaredNorm_zvec_sub]

/-- C14. In a built scene and for a ray of unit direction, whenever `iterate` accepts a
candidate sphere `S` (a scatterer or the outer sphere), the new position
`x' = x + (d + s) v` lies on the surface of `S`: `|x' - C|² = R²`; in particular a ray that
escaped (the call returned `false`) ends at distance `maxR` from the origin. -/
theorem accepted_position_on_sphere (c s maxR : ℝ) (ops : List (SceneOp ℝ)) (r : Ray ℝ)
    (hv : r.v.squaredNorm = 1)
    (hacc : (GRModel.build c s maxR ops).iterateLoop Real.sqrt r
      ((GRModel.build c s maxR ops).orderSphere Real.sqrt r.x) ≠ none) :
    ∃ it ∈ (GRModel.build c s maxR ops).orderSphere Real.sqrt r.x,
      ∃ S, (GRModel.build c s maxR ops).mSphere[it.index]? = some S ∧
        ¬ (GRModel.build c s maxR ops).rejects r it ∧
        ((GRModel.build c s maxR ops).iterate Real.sqrt r).1.x
          = r.x.add (vec.smul (travel Real.sqrt r S it.distance) r.v) ∧
        ((((GRModel.build c s maxR ops).iterate Real.sqrt r).1.x.sub S.pos).squaredNorm
          = S.r * S.r) ∧
        (((GRModel.build c s maxR ops).iterate Real.sqrt r).2 = false →
          ((GRModel.build c s maxR ops).iterate Real.sqrt r).1.x.squaredNorm = maxR * maxR ∧
          (0 ≤ maxR →
            ((GRModel.build c s maxR ops).iterate Real.sqrt r).1.x.norm Real.sqrt = maxR)) := by
  obtain ⟨it, hmem, hnr, hit⟩ := iterate_accepts Real.sqrt _ r hacc
  obtain ⟨S, hS, h0, hdist⟩ := candidate_distance c s maxR ops r.x it hmem
  have hSat := sphereAt_of_getElem? _ _ _ hS
  have hdisc : 0 ≤ S.r * S.r + r.v.dot (S.pos.sub r.x) * r.v.dot (S.pos.sub r.x)
      - it.distance * it.distance := by
    unfold GRModel.rejects at hnr
    rw [hSat] at hnr
    push_neg at hnr
    exact hnr.1
  have hsurf := hitRay_on_surface r S it.distance (decide (it.index = 0)) hv hdist hdisc
  rw [hSat] at hit
  refine ⟨it, hmem, S, hS, hnr, by rw [hit]; rfl, by rw [hit]; exact hsurf, ?_⟩
  intro hfalse
  have hidx : it.index = 0 := by
    rw [hit] at hfalse
    simpa using hfalse
  have hSeq := h0 hidx
  have hsq : ((GRModel.build c s maxR ops).iterate Real.sqrt r).1.x.squaredNorm
      = maxR * maxR := by
    rw [hit]
    have := hsurf
    rw [hSeq] at this ⊢
    simp only [vec.squaredNorm, vec.dot, vec.sub, zvec, sub_zero] at this ⊢
    exact this
  refine ⟨hsq, fun hpos => ?_⟩
  unfold vec.norm
  rw [hsq]
  exact Real.sqrt_mul_self hpos

/-- Witness for C14: the first call of scenario 1 accepts a candidate. -/
theorem accepted_position_on_sphere_witness :
    (rayTowards : Ray ℝ).v.squaredNorm = 1 ∧
    (GRModel.build 0 1 6 [SceneOp.addSphere ⟨0, 0, 0⟩ 1]).iterateLoop Real.sqrt
      (rayTowards : Ray ℝ)
      ((GRModel.build 0 1 6 [SceneOp.addSphere ⟨0, 0, 0⟩ 1]).orderSphere Real.sqrt
        (rayTowards : Ray ℝ).x) ≠ none ∧
    ∃ it ∈ (GRModel.build 0 1 6 [SceneOp.addSphere ⟨0, 0, 0⟩ 1]).orderSphere Real.sqrt
        (rayTowards : Ray ℝ).x,
      ∃ S, (GRModel.build 0 1 (6 : ℝ) [SceneOp.addSphere ⟨0, 0, 0⟩ 1]).mSphere[it.index]?
          = some S ∧
        ¬ (GRModel.build 0 1 6 [SceneOp.addSphere ⟨0, 0, 0⟩ 1]).rejects rayTowards it ∧
        ((GRModel.build 0 1 6 [SceneOp.addSphere ⟨0, 0, 0⟩ 1]).iterate Real.sqrt rayTowards).1.x
          = (rayTowards : Ray ℝ).x.add
              (vec.smul (travel Real.sqrt rayTowards S it.distance) rayTowards.v) ∧
        ((((GRModel.build 0 1 6 [SceneOp.addSphere ⟨0, 0, 0⟩ 1]).iterate Real.sqrt
            rayTowards).1.x.sub S.pos).squaredNorm = S.r * S.r) ∧
        (((GRModel.build 0 1 6 [SceneOp.addSphere ⟨0, 0, 0⟩ 1]).iterate Real.sqrt
            rayTowards).2 = false →
          ((GRModel.build 0 1 6 [SceneOp.addSphere ⟨0, 0, 0⟩ 1]).iterate Real.sqrt
            rayTowards).1.x.squaredNorm = 6 * 6 ∧
          (0 ≤ (6 : ℝ) →
            ((GRModel.build 0 1 6 [SceneOp.addSphere ⟨0, 0, 0⟩ 1]).iterate Real.sqrt
              rayTowards).1.x.norm Real.sqrt = 6)) :=
  ⟨by norm_num [rayTowards, vec.squaredNorm, vec.dot],
    by
      norm_num [rayTowards, GRModel.build, GRModel.apply, GRModel.orderSphere,
        GRModel.scattererOrder, GRModel.new, GRModel.addSphere, sort, sortInsert,
        GRModel.iterateLoop, GRModel.sphereAt, vec.norm, vec.squaredNorm, vec.dot, vec.sub,
        vec.add, vec.smul, zvec, sqrt_nine]
      simp,
    accepted_position_on_sphere 0 1 6 [SceneOp.addSphere ⟨0, 0, 0⟩ 1] rayTowards
      (by norm_num [rayTowards, vec.squaredNorm, vec.dot])
      (by
        norm_num [rayTowards, GRModel.build, GRModel.apply, GRModel.orderSphere,
          GRModel.scattererOrder, GRModel.new, GRModel.addSphere, sort, sortInsert,
          GRModel.iterateLoop, GRModel.sphereAt, vec.norm, vec.squaredNorm, vec.dot, vec.sub,
          vec.add, vec.smul, zvec, sqrt_nine]
        simp)⟩

/-! ## Reflection off a scatterer -/

/-- The sphere a call returning `true` reflects off: an accepted scatterer with nearest
centre (helper form of the nearest-centre statement). -/
theorem iterate_true_accepts (m : GRModel ℝ) (r : Ray ℝ)
    (h : (m.iterate Real.sqrt r).2 = true) :
    ∃ i S, 1 ≤ i ∧ m.mSphere[i]? = some S ∧
      0 ≤ r.v.dot (S.pos.sub r.x) ∧
      0 ≤ S.r ^ 2 + (r.v.dot (S.pos.sub r.x)) ^ 2 - (S.pos.sub r.x).squaredNorm ∧
      (m.iterate Real.sqrt r).1 = hitRay Real.sqrt r S ((S.pos.sub r.x).norm Real.sqrt) false ∧
      ∀ j T, 1 ≤ j → m.mSphere[j]? = some T →
        0 ≤ r.v.dot (T.pos.sub r.x) →
        0 ≤ T.r ^ 2 + (r.v.dot (T.pos.sub r.x)) ^ 2 - (T.pos.sub r.x).squaredNorm →
        (S.pos.sub r.x).norm Real.sqrt ≤ (T.pos.sub r.x).norm Real.sqrt := by
  rw [iterate_eq] at h ⊢
  cases hl : m.iterateLoop Real.sqrt r
      (sort sphereOrderingDistance (m.scattererOrder Real.sqrt r.x)) with
  | none =>
    rw [hl] at h
    simp only at h
    split at h <;> simp at h
  | some res =>
    obtain ⟨it, hmem, hacc, hres, hmin⟩ := iterateLoop_eq_some Real.sqrt m r _ res hl
    have hmem1 := (mem_sort _ _ _).1 hmem
    rw [mem_scattererOrder] at hmem1
    obtain ⟨i, S, hi, hS, rfl⟩ := hmem1
    have hacc1 := (not_rejects_scatterer_iff m r i S hi hS).1 hacc
    have hi0 : i ≠ 0 := by omega
    refine ⟨i, S, hi, hS, hacc1.1, hacc1.2, ?_, ?_⟩
    · simp only [hres, sphereAt_of_getElem? m i S hS, hi0, decide_False]
    · intro j T hj hT hd hdisc
      have hc : (⟨j, (T.pos.sub r.x).norm Real.sqrt⟩ : SphereOrdering ℝ) ∈
          sort sphereOrderingDistance (m.scattererOrder Real.sqrt r.x) := by
        rw [mem_sort, mem_scattererOrder]; exact ⟨j, T, hj, hT, rfl⟩
      exact hmin (sort_sorted _) _ hc ((not_rejects_scatterer_iff m r j T hj hT).2 ⟨hd, hdisc⟩)

theorem mem_tail_of_getElem? {α : Type} (l : List α) (i : Nat) (a : α) (hi : 1 ≤ i)
    (h : l[i]? = some a) : a ∈ l.tail := by
  obtain ⟨k, rfl⟩ : ∃ k, i = k + 1 := ⟨i - 1, by omega⟩
  cases l with
  | nil => simp at h
  | cons b rest =>
    simp only [List.getElem?_cons_succ] at h
    exact List.getElem?_mem h

/-- Discriminant in the form the loop body computes it from the recorded distance. -/
theorem disc_form (r : Ray ℝ) (S : Sphere ℝ)
    (h : 0 ≤ S.r ^ 2 + (r.v.dot (S.pos.sub r.x)) ^ 2 - (S.pos.sub r.x).squaredNorm) :
    0 ≤ S.r * S.r + r.v.dot (S.pos.sub r.x) * r.v.dot (S.pos.sub r.x)
      - (S.pos.sub r.x).norm Real.sqrt * (S.pos.sub r.x).norm Real.sqrt := by
  rw [norm_mul_self]; nlinarith [h]

theorem normal_dot_direction {F : Type} [LinearOrderedField F] (x v C : vec F) (t : F) :
    ((x.add (vec.smul t v)).sub C).dot v = t * v.squaredNorm - v.dot (C.sub x) := by
  simp only [vec.squaredNorm, vec.dot, vec.sub, vec.add, vec.smul]
  ring

theorem reflected_squaredNorm {F : Type} [LinearOrderedField F] (v n : vec F)
    (hn : n.squaredNorm = 1) :
    (v.sub (vec.smul (2 * n.dot v / 1) n)).squaredNorm = v.squaredNorm := by
  simp only [vec.squaredNorm, vec.dot, vec.sub, vec.smul, div_one] at hn ⊢
  linear_combination (4 * (n.x * v.x + n.y * v.y + n.z * v.z) ^ 2) * hn

theorem reflected_dot_back {F : Type} [LinearOrderedField F] (v n m : vec F)
    (hn : n.squaredNorm = 1) (hm : m = ⟨-n.x, -n.y, -n.z⟩) :
    (v.sub (vec.smul (2 * n.dot v / 1) n)).dot m = n.dot v := by
  subst hm
  simp only [vec.squaredNorm, vec.dot, vec.sub, vec.smul, div_one] at hn ⊢
  linear_combination (2 * (n.x * v.x + n.y * v.y + n.z * v.z)) * hn

theorem specular_of_unit_normal (v n : vec ℝ) (hn : n.squaredNorm = 1) :
    v.sub (vec.smul (2 * n.dot v / 1) n)
      = specularReflection v (vec.smul (1 / n.norm Real.sqrt) n) := by
  have h1 : n.norm Real.sqrt = 1 := by
    unfold vec.norm; rw [hn, Real.sqrt_one]
  simp only [specularReflection, h1, vec.sub, vec.smul, vec.dot, div_one, one_mul,
    vec.mk.injEq]
  refine ⟨?_, ?_, ?_⟩ <;> ring

/-- C15. In a scene whose scatterers have radius 1 and for a ray of unit direction, a call
of `iterate` that returns `true` leaves the ray on the hit sphere `S` at distance 1 from its
centre and sets the direction to the specular reflection `v' = v - 2(v·n̂)n̂`, with
`n̂ = (x' - C)/|x' - C|` the unit outward normal at the new position `x'`; the new direction
has unit length again. -/
theorem iterate_true_specular (m : GRModel ℝ) (r : Ray ℝ)
    (hR : ∀ S ∈ m.mSphere.tail, S.r = 1) (hv : r.v.squaredNorm = 1)
    (h : (m.iterate Real.sqrt r).2 = true) :
    ∃ i S, 1 ≤ i ∧ m.mSphere[i]? = some S ∧
      (m.iterate Real.sqrt r).1 = hitRay Real.sqrt r S ((S.pos.sub r.x).norm Real.sqrt) false ∧
      ((m.iterate Real.sqrt r).1.x.sub S.pos).norm Real.sqrt = 1 ∧
      (m.iterate Real.sqrt r).1.v
        = specularReflection r.v (unitNormal Real.sqrt (m.iterate Real.sqrt r).1.x S.pos) ∧
      (m.iterate Real.sqrt r).1.v.squaredNorm = 1 := by
  obtain ⟨i, S, hi, hS, _, hdisc, hres, _⟩ := iterate_true_accepts m r h
  have hS1 : S.r = 1 := hR S (mem_tail_of_getElem? _ i S hi hS)
  have hsurf := hitRay_on_surface r S ((S.pos.sub r.x).norm Real.sqrt) false hv
    (norm_mul_self _) (disc_form r S hdisc)
  rw [hS1, mul_one] at hsurf
  have hv1 : (hitRay Real.sqrt r S ((S.pos.sub r.x).norm Real.sqrt) false).v
      = r.v.sub (vec.smul
          (2 * ((hitRay Real.sqrt r S ((S.pos.sub r.x).norm Real.sqrt) false).x.sub S.pos).dot r.v
            / 1)
          ((hitRay Real.sqrt r S ((S.pos.sub r.x).norm Real.sqrt) false).x.sub S.pos)) := by
    simp [hitRay, hS1]
  refine ⟨i, S, hi, hS, hres, ?_, ?_, ?_⟩
  · rw [hres]
    show Real.sqrt _ = 1
    rw [hsurf, Real.sqrt_one]
  · rw [hres, hv1]
    exact specular_of_unit_normal _ _ hsurf
  · rw [hres, hv1, reflected_squaredNorm _ _ hsurf, hv]


/-- Witness for C15: the first call of scenario 1 (scatterer of radius 1) returns `true`. -/
theorem iterate_true_specular_witness :
    (∀ S ∈ (sceneSingle (1 : ℝ)).mSphere.tail, S.r = 1) ∧
    (rayTowards : Ray ℝ).v.squaredNorm = 1 ∧
    ((sceneSingle (1 : ℝ)).iterate Real.sqrt rayTowards).2 = true ∧
    ∃ i S, 1 ≤ i ∧ (sceneSingle (1 : ℝ)).mSphere[i]? = some S ∧
      ((sceneSingle (1 : ℝ)).iterate Real.sqrt rayTowards).1
        = hitRay Real.sqrt rayTowards S ((S.pos.sub (rayTowards : Ray ℝ).x).norm Real.sqrt)
            false ∧
      (((sceneSingle (1 : ℝ)).iterate Real.sqrt rayTowards).1.x.sub S.pos).norm Real.sqrt = 1 ∧
      ((sceneSingle (1 : ℝ)).iterate Real.sqrt rayTowards).1.v
        = specularReflection (rayTowards : Ray ℝ).v
            (unitNormal Real.sqrt ((sceneSingle (1 : ℝ)).iterate Real.sqrt rayTowards).1.x
              S.pos) ∧
      ((sceneSingle (1 : ℝ)).iterate Real.sqrt rayTowards).1.v.squaredNorm = 1 :=
  ⟨by simp [sceneSingle, GRModel.new, GRModel.addSphere],
    by norm_num [rayTowards, vec.squaredNorm, vec.dot],
    by norm_num [sceneSingle, rayTowards, GRModel.iterate, GRModel.orderSphere,
      GRModel.scattererOrder, GRModel.new, GRModel.addSphere, sort, sortInsert,
      GRModel.iterateLoop, GRModel.sphereAt, vec.norm, vec.squaredNorm, vec.dot, vec.sub,
      vec.add, vec.smul, zvec, sqrt_nine],
    iterate_true_specular (sceneSingle 1) rayTowards
      (by simp [sceneSingle, GRModel.new, GRModel.addSphere])
      (by norm_num [rayTowards, vec.squaredNorm, vec.dot])
      (by norm_num [sceneSingle, rayTowards, GRModel.iterate, GRModel.orderSphere,
        GRModel.scattererOrder, GRModel.new, GRModel.addSphere, sort, sortInsert,
        GRModel.iterateLoop, GRModel.sphereAt, vec.norm, vec.squaredNorm, vec.dot, vec.sub,
        vec.add, vec.smul, zvec, sqrt_nine])⟩

/-! ## Direction of travel -/

theorem sqrt_thirtysix : Real.sqrt 36 = 6 :=
  sqrt_eq_of_mul_self 36 6 (by norm_num) (by norm_num)

theorem sceneSingle_step_beyond :
    (sceneSingle (1 : ℝ)).iterate Real.sqrt rayBeyond
      = (⟨⟨-6, 0, 0⟩, ⟨1, 0, 0⟩, 1⟩, false) := by
  norm_num [sceneSingle, rayBeyond, GRModel.iterate, GRModel.orderSphere,
    GRModel.scattererOrder, GRModel.new, GRModel.addSphere, sort, sortInsert,
    GRModel.iterateLoop, GRModel.sphereAt, vec.norm, vec.squaredNorm, vec.dot, vec.sub,
    vec.add, vec.smul, zvec, sqrt_fortynine, sqrt_thirtysix]

/-- In a built scene a ray with `|x| ≤ maxR` always has an accepted candidate. -/
theorem build_loop_ne_none (c s maxR : ℝ) (ops : List (SceneOp ℝ)) (r : Ray ℝ)
    (h : r.x.norm Real.sqrt ≤ maxR) :
    (GRModel.build c s maxR ops).iterateLoop Real.sqrt r
      ((GRModel.build c s maxR ops).orderSphere Real.sqrt r.x) ≠ none := by
  obtain ⟨rest, hrest⟩ := build_head c s maxR ops
  have h0 : (GRModel.build c s maxR ops).sphereAt 0 = ⟨zvec, maxR⟩ :=
    sphereAt_of_getElem? _ 0 _ (by simp [hrest])
  intro hnone
  rw [iterateLoop_eq_none_iff] at hnone
  have hrej := hnone ⟨0, r.x.norm Real.sqrt⟩ (by simp [GRModel.orderSphere])
  unfold GRModel.rejects at hrej
  simp only [h0] at hrej
  rcases hrej with hlt | ⟨_, hne⟩
  · nlinarith [norm_nonneg r.x, mul_self_nonneg (r.v.dot ((zvec : vec ℝ).sub r.x))]
  · exact hne rfl

/-- Travel parameter when the recorded distance is below the radius: `d + sqrt disc ≥ 0`
as soon as `disc ≥ d²`. -/
theorem travel_nonneg_of_inside (r : Ray ℝ) (S : Sphere ℝ) (l : ℝ) (hl : 0 ≤ l)
    (hin : S.r > l) : 0 ≤ travel Real.sqrt r S l := by
  unfold travel
  rw [if_pos hin]
  have hsq : r.v.dot (S.pos.sub r.x) ^ 2
      ≤ S.r * S.r + r.v.dot (S.pos.sub r.x) * r.v.dot (S.pos.sub r.x) - l * l := by
    nlinarith
  have habs := Real.abs_le_sqrt hsq
  have := neg_abs_le (r.v.dot (S.pos.sub r.x))
  linarith

/-- Travel parameter when the recorded distance is at least the radius: `d - sqrt disc ≥ 0`
for `d ≥ 0` and a non-negative radius. -/
theorem travel_nonneg_of_outside (r : Ray ℝ) (S : Sphere ℝ) (l : ℝ) (hR : 0 ≤ S.r)
    (hout : ¬ S.r > l) (hd : 0 ≤ r.v.dot (S.pos.sub r.x)) : 0 ≤ travel Real.sqrt r S l := by
  unfold travel
  rw [if_neg hout]
  have hle : S.r * S.r + r.v.dot (S.pos.sub r.x) * r.v.dot (S.pos.sub r.x) - l * l
      ≤ r.v.dot (S.pos.sub r.x) ^ 2 := by
    nlinarith [not_lt.1 hout]
  have h1 := Real.sqrt_le_sqrt hle
  rw [Real.sqrt_sq hd] at h1
  linarith

/-- C16 (counterexample). For the ray `rayBeyond`, outside the outer sphere of radius 6 and
leaving, the only candidate the loop accepts is the outer sphere (outside case `R ≤ L` with
`d < 0`), and the travelled parameter is `t = d + s = -13 < 0`: the ray is moved backwards to
`(-6, 0, 0)`. -/
theorem outer_sphere_pulls_ray_back :
    (sceneSingle (1 : ℝ)).iterate Real.sqrt rayBeyond
      = (hitRay Real.sqrt rayBeyond ⟨zvec, 6⟩ ((rayBeyond : Ray ℝ).x.norm Real.sqrt) true, false) ∧
    ¬ (sceneSingle (1 : ℝ)).rejects rayBeyond ⟨0, (rayBeyond : Ray ℝ).x.norm Real.sqrt⟩ ∧
    ((sceneSingle (1 : ℝ)).iterate Real.sqrt rayBeyond).1.x
      = (rayBeyond : Ray ℝ).x.add (vec.smul (-13) rayBeyond.v) ∧
    travel Real.sqrt (rayBeyond : Ray ℝ) ⟨zvec, 6⟩ ((rayBeyond : Ray ℝ).x.norm Real.sqrt) = -13 ∧
    ¬ 0 ≤ travel Real.sqrt (rayBeyond : Ray ℝ) ⟨zvec, 6⟩
      ((rayBeyond : Ray ℝ).x.norm Real.sqrt) := by
  have ht : travel Real.sqrt (rayBeyond : Ray ℝ) ⟨zvec, 6⟩
      ((rayBeyond : Ray ℝ).x.norm Real.sqrt) = -13 := by
    norm_num [travel, rayBeyond, vec.norm, vec.squaredNorm, vec.dot, vec.sub, zvec,
      sqrt_fortynine, sqrt_thirtysix]
  refine ⟨?_, ?_, ?_, ht, by rw [ht]; norm_num⟩
  · rw [sceneSingle_step_beyond]
    simp only [hitRay, ht]
    norm_num [rayBeyond, vec.add, vec.smul]
  · norm_num [GRModel.rejects, sceneSingle, rayBeyond, GRModel.new, GRModel.addSphere,
      GRModel.sphereAt, vec.norm, vec.squaredNorm, vec.dot, vec.sub, zvec, sqrt_fortynine]
  · rw [sceneSingle_step_beyond]
    norm_num [rayBeyond, vec.add, vec.smul]

/-- C16 (amended). In a built scene whose scatterers have non-negative radius, for every ray
strictly inside the outer sphere (`|x| < maxR`, any direction), the candidate `iterate`
accepts has a travelled parameter `t = d + s ≥ 0` in `x' = x + t v`. -/
theorem travel_nonneg_inside (c s maxR : ℝ) (ops : List (SceneOp ℝ)) (r : Ray ℝ)
    (hin : r.x.norm Real.sqrt < maxR)
    (hrad : ∀ S ∈ (GRModel.build c s maxR ops).mSphere.tail, 0 ≤ S.r) :
    ∃ it ∈ (GRModel.build c s maxR ops).orderSphere Real.sqrt r.x,
      ∃ S, (GRModel.build c s maxR ops).mSphere[it.index]? = some S ∧
        ¬ (GRModel.build c s maxR ops).rejects r it ∧
        ((GRModel.build c s maxR ops).iterate Real.sqrt r).1.x
          = r.x.add (vec.smul (travel Real.sqrt r S it.distance) r.v) ∧
        0 ≤ travel Real.sqrt r S it.distance := by
  obtain ⟨it, hmem, hnr, hit⟩ :=
    iterate_accepts Real.sqrt _ r (build_loop_ne_none c s maxR ops r (le_of_lt hin))
  have hmem1 := hmem
  rw [mem_orderSphere] at hmem1
  rcases hmem1 with ⟨i, S, hi, hS, rfl⟩ | rfl
  · have hSat := sphereAt_of_getElem? _ _ _ hS
    rw [hSat] at hit
    refine ⟨_, hmem, S, hS, hnr, by rw [hit]; rfl, ?_⟩
    have hacc := (not_rejects_scatterer_iff _ r i S hi hS).1 hnr
    by_cases hcase : S.r > (S.pos.sub r.x).norm Real.sqrt
    · exact travel_nonneg_of_inside r S _ (norm_nonneg _) hcase
    · exact travel_nonneg_of_outside r S _ (hrad S (mem_tail_of_getElem? _ i S hi hS)) hcase
        hacc.1
  · obtain ⟨rest, hrest⟩ := build_head c s maxR ops
    have hS : (GRModel.build c s maxR ops).mSphere[0]? = some ⟨zvec, maxR⟩ := by simp [hrest]
    have hSat := sphereAt_of_getElem? _ _ _ hS
    rw [hSat] at hit
    refine ⟨_, hmem, ⟨zvec, maxR⟩, hS, hnr, by rw [hit]; rfl, ?_⟩
    exact travel_nonneg_of_inside r ⟨zvec, maxR⟩ _ (norm_nonneg _) hin


/-- Witness for C16 (amended): the ray of scenario 1 is strictly inside the outer sphere. -/
theorem travel_nonneg_inside_witness :
    (rayTowards : Ray ℝ).x.norm Real.sqrt < 6 ∧
    (∀ S ∈ (GRModel.build 0 1 (6 : ℝ) [SceneOp.addSphere ⟨0, 0, 0⟩ 1]).mSphere.tail,
      0 ≤ S.r) ∧
    ∃ it ∈ (GRModel.build 0 1 6 [SceneOp.addSphere ⟨0, 0, 0⟩ 1]).orderSphere Real.sqrt
        (rayTowards : Ray ℝ).x,
      ∃ S, (GRModel.build 0 1 (6 : ℝ) [SceneOp.addSphere ⟨0, 0, 0⟩ 1]).mSphere[it.index]?
          = some S ∧
        ¬ (GRModel.build 0 1 6 [SceneOp.addSphere ⟨0, 0, 0⟩ 1]).rejects rayTowards it ∧
        ((GRModel.build 0 1 6 [SceneOp.addSphere ⟨0, 0, 0⟩ 1]).iterate Real.sqrt rayTowards).1.x
          = (rayTowards : Ray ℝ).x.add
              (vec.smul (travel Real.sqrt rayTowards S it.distance) rayTowards.v) ∧
        0 ≤ travel Real.sqrt rayTowards S it.distance :=
  ⟨by norm_num [rayTowards, vec.norm, vec.squaredNorm, vec.dot, sqrt_nine],
    by norm_num [GRModel.build, GRModel.apply, GRModel.new, GRModel.addSphere],
    travel_nonneg_inside 0 1 6 [SceneOp.addSphere ⟨0, 0, 0⟩ 1] rayTowards
      (by norm_num [rayTowards, vec.norm, vec.squaredNorm, vec.dot, sqrt_nine])
      (by norm_num [GRModel.build, GRModel.apply, GRModel.new, GRModel.addSphere])⟩

/-! ## The call after a reflection -/

theorem sqrt_sixteen : Real.sqrt 16 = 4 :=
  sqrt_eq_of_mul_self 16 4 (by norm_num) (by norm_num)

theorem sceneSingle_step_grazing :
    (sceneSingle (1 : ℝ)).iterate Real.sqrt rayGrazing
      = (⟨⟨0, 1, 0⟩, ⟨1, 0, 0⟩, 1⟩, true) := by
  norm_num [sceneSingle, rayGrazing, GRModel.iterate, GRModel.orderSphere,
    GRModel.scattererOrder, GRModel.new, GRModel.addSphere, sort, sortInsert,
    GRModel.iterateLoop, GRModel.sphereAt, vec.norm, vec.squaredNorm, vec.dot, vec.sub,
    vec.add, vec.smul, zvec, sqrt_twentyfive, sqrt_sixteen]

theorem sceneSingle_step_grazing_again (k : Nat) :
    (sceneSingle (1 : ℝ)).iterate Real.sqrt ⟨⟨0, 1, 0⟩, ⟨1, 0, 0⟩, k⟩
      = (⟨⟨0, 1, 0⟩, ⟨1, 0, 0⟩, (k + 1) % 2 ^ 32⟩, true) := by
  norm_num [sceneSingle, GRModel.iterate, GRModel.orderSphere,
    GRModel.scattererOrder, GRModel.new, GRModel.addSphere, sort, sortInsert,
    GRModel.iterateLoop, GRModel.sphereAt, vec.norm, vec.squaredNorm, vec.dot, vec.sub,
    vec.add, vec.smul, zvec]

theorem sub_eq_neg_components {F : Type} [LinearOrderedField F] (a b : vec F) :
    a.sub b = ⟨-(b.sub a).x, -(b.sub a).y, -(b.sub a).z⟩ := by
  simp [vec.sub]

/-- C17 (counterexample). In scenario-1's scene (one scatterer of radius 1) the unit-direction
ray `rayGrazing` from `(-3/4, 1, 0)`, strictly outside the scatterer, meets it tangentially
(`L = 5/4`, `d = 3/4`, `disc = 1 + 9/16 - 25/16 = 0`): the call returns `true` by reflecting
off scatterer 1 at `(0, 1, 0)`, the resulting ray is not rejected by the acceptance test of
scatterer 1 (`d = 0`, `disc = 0`), and the next call reflects off scatterer 1 again. -/
theorem grazing_ray_hits_same_sphere_again :
    (∀ S ∈ (sceneSingle (1 : ℝ)).mSphere.tail, S.r = 1) ∧
    (rayGrazing : Ray ℝ).v.squaredNorm = 1 ∧
    (∀ S ∈ (sceneSingle (1 : ℝ)).mSphere.tail,
      S.r * S.r < (S.pos.sub (rayGrazing : Ray ℝ).x).squaredNorm) ∧
    (sceneSingle (1 : ℝ)).mSphere[1]? = some ⟨⟨0, 0, 0⟩, 1⟩ ∧
    (sceneSingle (1 : ℝ)).iterate Real.sqrt rayGrazing
      = (⟨⟨0, 1, 0⟩, ⟨1, 0, 0⟩, 1⟩, true) ∧
    (sceneSingle (1 : ℝ)).iterate Real.sqrt ⟨⟨0, 1, 0⟩, ⟨1, 0, 0⟩, 1⟩
      = (⟨⟨0, 1, 0⟩, ⟨1, 0, 0⟩, 2⟩, true) ∧
    (sceneSingle (1 : ℝ)).iterate Real.sqrt rayGrazing
      = (hitRay Real.sqrt rayGrazing ⟨⟨0, 0, 0⟩, 1⟩
          (((⟨0, 0, 0⟩ : vec ℝ).sub (rayGrazing : Ray ℝ).x).norm Real.sqrt) false, true) ∧
    ¬ (sceneSingle (1 : ℝ)).rejects ((sceneSingle (1 : ℝ)).iterate Real.sqrt rayGrazing).1
        ⟨1, ((⟨0, 0, 0⟩ : vec ℝ).sub
          ((sceneSingle (1 : ℝ)).iterate Real.sqrt rayGrazing).1.x).norm Real.sqrt⟩ ∧
    (sceneSingle (1 : ℝ)).iterate Real.sqrt
        ((sceneSingle (1 : ℝ)).iterate Real.sqrt rayGrazing).1
      = (hitRay Real.sqrt ((sceneSingle (1 : ℝ)).iterate Real.sqrt rayGrazing).1
          ⟨⟨0, 0, 0⟩, 1⟩
          (((⟨0, 0, 0⟩ : vec ℝ).sub
            ((sceneSingle (1 : ℝ)).iterate Real.sqrt rayGrazing).1.x).norm Real.sqrt) false,
          true) := by
  refine ⟨?_, ?_, ?_, ?_, sceneSingle_step_grazing, sceneSingle_step_grazing_again 1, ?_,
    ?_, ?_⟩
  · simp [sceneSingle, GRModel.new, GRModel.addSphere]
  · norm_num [rayGrazing, vec.squaredNorm, vec.dot]
  · norm_num [sceneSingle, GRModel.new, GRModel.addSphere, rayGrazing, vec.squaredNorm,
      vec.dot, vec.sub]
  · simp [sceneSingle, GRModel.new, GRModel.addSphere]
  · rw [sceneSingle_step_grazing]
    norm_num [hitRay, travel, rayGrazing, vec.norm, vec.squaredNorm, vec.dot, vec.sub,
      vec.add, vec.smul, sqrt_twentyfive, sqrt_sixteen]
  · rw [sceneSingle_step_grazing]
    norm_num [GRModel.rejects, sceneSingle, GRModel.new, GRModel.addSphere,
      GRModel.sphereAt, vec.norm, vec.squaredNorm, vec.dot, vec.sub]
  · rw [sceneSingle_step_grazing, sceneSingle_step_grazing_again]
    norm_num [hitRay, travel, vec.norm, vec.squaredNorm, vec.dot, vec.sub,
      vec.add, vec.smul]

/-- C17 (amended). In a scene with radius-1 scatterers and for a unit-direction ray strictly
outside all scatterers, if a call of `iterate` returns `true` by reflecting off scatterer
`i` and the hit is not tangential (`disc > 0`), then the resulting ray is rejected by the
acceptance test of scatterer `i`: the next call does not accept it again. -/
theorem reflected_ray_rejects_same_sphere (m : GRModel ℝ) (r : Ray ℝ)
    (hR : ∀ S ∈ m.mSphere.tail, S.r = 1) (hv : r.v.squaredNorm = 1)
    (hout : ∀ S ∈ m.mSphere.tail, S.r * S.r < (S.pos.sub r.x).squaredNorm)
    (h : (m.iterate Real.sqrt r).2 = true) :
    ∃ i S, 1 ≤ i ∧ m.mSphere[i]? = some S ∧
      (m.iterate Real.sqrt r).1 = hitRay Real.sqrt r S ((S.pos.sub r.x).norm Real.sqrt) false ∧
      (0 < S.r ^ 2 + (r.v.dot (S.pos.sub r.x)) ^ 2 - (S.pos.sub r.x).squaredNorm →
        m.rejects (m.iterate Real.sqrt r).1
          ⟨i, (S.pos.sub (m.iterate Real.sqrt r).1.x).norm Real.sqrt⟩) := by
  obtain ⟨i, S, hi, hS, _, hdisc, hres, _⟩ := iterate_true_accepts m r h
  have hmemS := mem_tail_of_getElem? _ i S hi hS
  have hS1 : S.r = 1 := hR S hmemS
  have hsurf := hitRay_on_surface r S ((S.pos.sub r.x).norm Real.sqrt) false hv
    (norm_mul_self _) (disc_form r S hdisc)
  rw [hS1, mul_one] at hsurf
  refine ⟨i, S, hi, hS, hres, ?_⟩
  intro hpos
  have hSout := hout S hmemS
  rw [hS1] at hSout
  have hcase : ¬ S.r > (S.pos.sub r.x).norm Real.sqrt := by
    rw [hS1]
    have : (1 : ℝ) < (S.pos.sub r.x).norm Real.sqrt := by
      unfold vec.norm
      rw [Real.lt_sqrt (by norm_num)]
      linarith
    exact not_lt.2 (le_of_lt this)
  have hD : 0 < S.r * S.r + r.v.dot (S.pos.sub r.x) * r.v.dot (S.pos.sub r.x)
      - (S.pos.sub r.x).norm Real.sqrt * (S.pos.sub r.x).norm Real.sqrt := by
    rw [norm_mul_self]; nlinarith [hpos]
  have htravel : travel Real.sqrt r S ((S.pos.sub r.x).norm Real.sqrt)
      - r.v.dot (S.pos.sub r.x) < 0 := by
    unfold travel
    rw [if_neg hcase]
    have := Real.sqrt_pos.2 hD
    linarith
  have hndot : ((hitRay Real.sqrt r S ((S.pos.sub r.x).norm Real.sqrt) false).x.sub S.pos).dot r.v
      < 0 := by
    simp only [hitRay]
    rw [normal_dot_direction, hv]
    linarith
  have hv1 : (hitRay Real.sqrt r S ((S.pos.sub r.x).norm Real.sqrt) false).v
      = r.v.sub (vec.smul
          (2 * ((hitRay Real.sqrt r S ((S.pos.sub r.x).norm Real.sqrt) false).x.sub S.pos).dot r.v
            / 1)
          ((hitRay Real.sqrt r S ((S.pos.sub r.x).norm Real.sqrt) false).x.sub S.pos)) := by
    simp [hitRay, hS1]
  rw [hres]
  unfold GRModel.rejects
  simp only [sphereAt_of_getElem? m i S hS]
  right
  refine ⟨?_, by omega⟩
  rw [hv1, reflected_dot_back _ _ _ hsurf (sub_eq_neg_components _ _)]
  exact hndot


/-- Witness for C17 (amended): the head-on hit of scenario 1 has `disc = 1 > 0`. -/
theorem reflected_ray_rejects_same_sphere_witness :
    (∀ S ∈ (sceneSingle (1 : ℝ)).mSphere.tail, S.r = 1) ∧
    (rayTowards : Ray ℝ).v.squaredNorm = 1 ∧
    (∀ S ∈ (sceneSingle (1 : ℝ)).mSphere.tail,
      S.r * S.r < (S.pos.sub (rayTowards : Ray ℝ).x).squaredNorm) ∧
    ((sceneSingle (1 : ℝ)).iterate Real.sqrt rayTowards).2 = true ∧
    ∃ i S, 1 ≤ i ∧ (sceneSingle (1 : ℝ)).mSphere[i]? = some S ∧
      ((sceneSingle (1 : ℝ)).iterate Real.sqrt rayTowards).1
        = hitRay Real.sqrt rayTowards S ((S.pos.sub (rayTowards : Ray ℝ).x).norm Real.sqrt)
            false ∧
      (0 < S.r ^ 2 + ((rayTowards : Ray ℝ).v.dot (S.pos.sub rayTowards.x)) ^ 2
            - (S.pos.sub (rayTowards : Ray ℝ).x).squaredNorm →
        (sceneSingle (1 : ℝ)).rejects ((sceneSingle (1 : ℝ)).iterate Real.sqrt rayTowards).1
          ⟨i, (S.pos.sub
            ((sceneSingle (1 : ℝ)).iterate Real.sqrt rayTowards).1.x).norm Real.sqrt⟩) :=
  ⟨by simp [sceneSingle, GRModel.new, GRModel.addSphere],
    by norm_num [rayTowards, vec.squaredNorm, vec.dot],
    by norm_num [sceneSingle, GRModel.new, GRModel.addSphere, rayTowards, vec.squaredNorm,
      vec.dot, vec.sub],
    by norm_num [sceneSingle, rayTowards, GRModel.iterate, GRModel.orderSphere,
      GRModel.scattererOrder, GRModel.new, GRModel.addSphere, sort, sortInsert,
      GRModel.iterateLoop, GRModel.sphereAt, vec.norm, vec.squaredNorm, vec.dot, vec.sub,
      vec.add, vec.smul, zvec, sqrt_nine],
    reflected_ray_rejects_same_sphere (sceneSingle 1) rayTowards
      (by simp [sceneSingle, GRModel.new, GRModel.addSphere])
      (by norm_num [rayTowards, vec.squaredNorm, vec.dot])
      (by norm_num [sceneSingle, GRModel.new, GRModel.addSphere, rayTowards, vec.squaredNorm,
        vec.dot, vec.sub])
      (by norm_num [sceneSingle, rayTowards, GRModel.iterate, GRModel.orderSphere,
        GRModel.scattererOrder, GRModel.new, GRModel.addSphere, sort, sortInsert,
        GRModel.iterateLoop, GRModel.sphereAt, vec.norm, vec.squaredNorm, vec.dot, vec.sub,
        vec.add, vec.smul, zvec, sqrt_nine])⟩

/-! ## The canonical scenes -/

theorem rotY_sub_squaredNorm {F : Type} [LinearOrderedField F] (c s : F)
    (h : c * c + s * s = 1) (a b : vec F) :
    ((rotY c s a).sub (rotY c s b)).squaredNorm = (a.sub b).squaredNorm := by
  simp only [vec.squaredNorm, vec.dot, vec.sub, rotY]
  linear_combination ((a.x - b.x) ^ 2 + (a.z - b.z) ^ 2) * h

theorem rotY_squaredNorm {F : Type} [LinearOrderedField F] (c s : F)
    (h : c * c + s * s = 1) (a : vec F) :
    (rotY c s a).squaredNorm = a.squaredNorm := by
  simp only [vec.squaredNorm, vec.dot, rotY]
  linear_combination (a.x ^ 2 + a.z ^ 2) * h

theorem smul_sub_squaredNorm {F : Type} [LinearOrderedField F] (k : F) (a b : vec F) :
    ((vec.smul k a).sub (vec.smul k b)).squaredNorm = k * k * (a.sub b).squaredNorm := by
  simp only [vec.squaredNorm, vec.dot, vec.sub, vec.smul]
  ring

theorem smul_squaredNorm {F : Type} [LinearOrderedField F] (k : F) (a : vec F) :
    (vec.smul k a).squaredNorm = k * k * a.squaredNorm := by
  simp only [vec.squaredNorm, vec.dot, vec.smul]
  ring

theorem cos_sin_quarter : Real.cos (-(Real.pi / 4)) * Real.cos (-(Real.pi / 4))
    + Real.sin (-(Real.pi / 4)) * Real.sin (-(Real.pi / 4)) = 1 := by
  have := Real.cos_sq_add_sin_sq (-(Real.pi / 4))
  linarith [this, sq (Real.cos (-(Real.pi / 4))), sq (Real.sin (-(Real.pi / 4)))]

theorem two_le_norm_of_sq (a : vec ℝ) (h : 4 ≤ a.squaredNorm) : 2 ≤ a.norm Real.sqrt := by
  unfold vec.norm
  rw [Real.le_sqrt' (by norm_num)]
  linarith

theorem norm_add_one_lt_six_of_sq (a : vec ℝ) (h : a.squaredNorm < 25) :
    a.norm Real.sqrt + 1 < 6 := by
  have : a.norm Real.sqrt < 5 := by
    unfold vec.norm
    rw [Real.sqrt_lt' (by norm_num)]
    linarith
  linarith

/-- C18. The scene `main` builds, `GRModel(6)` followed by `init3D(1.000001, 1)` with the
exact cosine and sine of `-π/4`, and likewise `GRModel(6)` followed by
`init2D(1.000001, 1)`, is well-formed in exact arithmetic: it has 4 (resp. 3) scatterers of
radius 1, any two of them with centres at distance at least 2, each with
`|centre| + 1 < 6`; the rotation of `init3D` changes neither the distance between two points
nor the distance of a point from the origin. -/
theorem mainScene_wellFormed :
    (mainScene (Real.cos (-(Real.pi / 4))) (Real.sin (-(Real.pi / 4)))).mSphere.tail.length = 4 ∧
    (mainScene (Real.cos (-(Real.pi / 4))) (Real.sin (-(Real.pi / 4)))).mSphere.tail.Pairwise
      (fun S T => 2 ≤ (S.pos.sub T.pos).norm Real.sqrt) ∧
    (∀ S ∈ (mainScene (Real.cos (-(Real.pi / 4))) (Real.sin (-(Real.pi / 4)))).mSphere.tail,
      S.r = 1 ∧ S.pos.norm Real.sqrt + 1 < 6) ∧
    (mainScene2D : GRModel ℝ).mSphere.tail.length = 3 ∧
    (mainScene2D : GRModel ℝ).mSphere.tail.Pairwise
      (fun S T => 2 ≤ (S.pos.sub T.pos).norm Real.sqrt) ∧
    (∀ S ∈ (mainScene2D : GRModel ℝ).mSphere.tail, S.r = 1 ∧ S.pos.norm Real.sqrt + 1 < 6) ∧
    (∀ a b : vec ℝ,
      ((rotY (Real.cos (-(Real.pi / 4))) (Real.sin (-(Real.pi / 4))) a).sub
          (rotY (Real.cos (-(Real.pi / 4))) (Real.sin (-(Real.pi / 4))) b)).norm Real.sqrt
        = (a.sub b).norm Real.sqrt) ∧
    (∀ a : vec ℝ,
      (rotY (Real.cos (-(Real.pi / 4))) (Real.sin (-(Real.pi / 4))) a).norm Real.sqrt
        = a.norm Real.sqrt) := by
  have hcs := cos_sin_quarter
  refine ⟨rfl, ?_, ?_, rfl, ?_, ?_, ?_, ?_⟩
  · simp only [mainScene, GRModel.init3D, GRModel.addSphere, GRModel.new, List.cons_append,
      List.nil_append, List.tail_cons, List.pairwise_cons, List.mem_cons, List.mem_singleton,
      List.not_mem_nil, forall_eq_or_imp, forall_eq, List.Pairwise.nil, and_true,
      IsEmpty.forall_iff, implies_true]
    refine ⟨⟨?_, ?_, ?_⟩, ⟨?_, ?_⟩, ?_⟩ <;>
    · apply two_le_norm_of_sq
      rw [smul_sub_squaredNorm, rotY_sub_squaredNorm _ _ hcs]
      norm_num [sSpacing, s1gr3d, s2gr3d, s3gr3d, s4gr3d, vec.squaredNorm, vec.dot, vec.sub]
  · intro S hS
    simp only [mainScene, GRModel.init3D, GRModel.addSphere, GRModel.new, List.cons_append,
      List.nil_append, List.tail_cons, List.mem_cons, List.mem_singleton,
      List.not_mem_nil, or_false] at hS
    rcases hS with rfl | rfl | rfl | rfl <;>
    · refine ⟨rfl, ?_⟩
      apply norm_add_one_lt_six_of_sq
      rw [smul_squaredNorm, rotY_squaredNorm _ _ hcs]
      norm_num [sSpacing, s1gr3d, s2gr3d, s3gr3d, s4gr3d, vec.squaredNorm, vec.dot]
  · simp only [mainScene2D, GRModel.init2D, GRModel.addSphere, GRModel.new, List.cons_append,
      List.nil_append, List.tail_cons, List.pairwise_cons, List.mem_cons, List.mem_singleton,
      List.not_mem_nil, forall_eq_or_imp, forall_eq, List.Pairwise.nil, and_true,
      IsEmpty.forall_iff, implies_true]
    refine ⟨⟨?_, ?_⟩, ?_⟩ <;>
    · apply two_le_norm_of_sq
      rw [smul_sub_squaredNorm]
      norm_num [sSpacing, s1gr2d, s2gr2d, s3gr2d, vec.squaredNorm, vec.dot, vec.sub]
  · intro S hS
    simp only [mainScene2D, GRModel.init2D, GRModel.addSphere, GRModel.new, List.cons_append,
      List.nil_append, List.tail_cons, List.mem_cons, List.mem_singleton,
      List.not_mem_nil, or_false] at hS
    rcases hS with rfl | rfl | rfl <;>
    · refine ⟨rfl, ?_⟩
      apply norm_add_one_lt_six_of_sq
      rw [smul_squaredNorm]
      norm_num [sSpacing, s1gr2d, s2gr2d, s3gr2d, vec.squaredNorm, vec.dot]
  · intro a b
    unfold vec.norm
    rw [rotY_sub_squaredNorm _ _ hcs]
  · intro a
    unfold vec.norm
    rw [rotY_squaredNorm _ _ hcs]

/-! ## First hit among scatterers of equal radius -/

theorem pairwise_tail_rel {α : Type} (R : α → α → Prop) (hsym : ∀ a b, R a b → R b a)
    (l : List α) (h : l.tail.Pairwise R) (i j : Nat) (a b : α) (hi : 1 ≤ i) (hj : 1 ≤ j)
    (hij : i ≠ j) (ha : l[i]? = some a) (hb : l[j]? = some b) : R a b := by
  obtain ⟨i1, rfl⟩ : ∃ k, i = k + 1 := ⟨i - 1, by omega⟩
  obtain ⟨j1, rfl⟩ : ∃ k, j = k + 1 := ⟨j - 1, by omega⟩
  rw [← List.getElem?_tail] at ha hb
  rw [List.getElem?_eq_some_iff] at ha hb
  obtain ⟨hi1, rfl⟩ := ha
  obtain ⟨hj1, rfl⟩ := hb
  rw [List.pairwise_iff_getElem] at h
  rcases Nat.lt_or_gt_of_ne (show i1 ≠ j1 by omega) with hlt | hgt
  · exact h i1 j1 hi1 hj1 hlt
  · exact hsym _ _ (h j1 i1 hj1 hi1 hgt)

/-- Cauchy-Schwarz inequality for the scalar product of `vec`. -/
theorem dot_sq_le {F : Type} [LinearOrderedField F] (u w : vec F) :
    u.dot w * u.dot w ≤ u.squaredNorm * w.squaredNorm := by
  simp only [vec.squaredNorm, vec.dot]
  nlinarith [sq_nonneg (u.x * w.y - u.y * w.x), sq_nonneg (u.y * w.z - u.z * w.y),
    sq_nonneg (u.z * w.x - u.x * w.z)]

/-- A point `P` on a sphere of radius `R` about `cA` is not strictly inside a sphere of
radius `R` about `cB` when the centres are at least `2R` apart. -/
theorem outside_other_sphere {F : Type} [LinearOrderedField F] (P cA cB : vec F) (R : F)
    (hP : (P.sub cA).squaredNorm = R * R)
    (hsep : (R + R) * (R + R) ≤ (cA.sub cB).squaredNorm) :
    R * R ≤ (P.sub cB).squaredNorm := by
  have hcs := dot_sq_le (P.sub cA) (cA.sub cB)
  have hW := squaredNorm_nonneg (cA.sub cB)
  have hexp : (P.sub cB).squaredNorm
      = (P.sub cA).squaredNorm + 2 * (P.sub cA).dot (cA.sub cB) + (cA.sub cB).squaredNorm := by
    simp only [vec.squaredNorm, vec.dot, vec.sub]
    ring
  rw [hexp, hP]
  rw [hP] at hcs
  by_contra hneg
  push_neg at hneg
  nlinarith [hcs, hW, hsep, hneg, mul_nonneg hW hW]

/-- Core inequality on the line of the ray: of two spheres of equal radius entered from
outside, the one with the nearer centre is entered first, provided its entry point is not
strictly inside the other sphere. -/
theorem entry_le_of_nearer (R dA dB sA sB A B : ℝ)
    (hdA : 0 ≤ dA) (hdB : 0 ≤ dB) (hsA : 0 ≤ sA)
    (hA : sA * sA = R * R + dA * dA - A) (hB : sB * sB = R * R + dB * dB - B)
    (hBout : R * R < B) (hAB : A ≤ B)
    (hgeo : sB * sB ≤ (dA - sA - dB) * (dA - sA - dB)) :
    dA - sA ≤ dB - sB := by
  by_contra hlt
  push_neg at hlt
  have h1 : dB + sB ≤ dA - sA := by
    by_contra h2
    push_neg at h2
    nlinarith [hgeo, hlt, h2]
  have hdBpos : 0 < dB := by
    by_contra h3
    push_neg at h3
    have : dB = 0 := le_antisymm h3 hdB
    nlinarith [mul_self_nonneg sB]
  nlinarith [mul_nonneg hdB hsA, mul_self_nonneg sB,
    mul_pos hdBpos hdBpos]

/-- Travel parameter of a scatterer entered from outside: `d - sqrt disc`. -/
theorem travel_outside (r : Ray ℝ) (S : Sphere ℝ)
    (hout : S.r * S.r < (S.pos.sub r.x).squaredNorm) :
    travel Real.sqrt r S ((S.pos.sub r.x).norm Real.sqrt)
      = r.v.dot (S.pos.sub r.x)
        - Real.sqrt (S.r ^ 2 + (r.v.dot (S.pos.sub r.x)) ^ 2 - (S.pos.sub r.x).squaredNorm) := by
  have hcase : ¬ S.r > (S.pos.sub r.x).norm Real.sqrt := by
    intro hgt
    have hpos : 0 < S.r := lt_of_le_of_lt (norm_nonneg _) hgt
    have := (Real.sqrt_lt' hpos).1 hgt
    nlinarith
  unfold travel
  rw [if_neg hcase, norm_mul_self]
  have harg : S.r * S.r + r.v.dot (S.pos.sub r.x) * r.v.dot (S.pos.sub r.x)
      - (S.pos.sub r.x).squaredNorm
      = S.r ^ 2 + (r.v.dot (S.pos.sub r.x)) ^ 2 - (S.pos.sub r.x).squaredNorm := by ring
  rw [harg]
  ring

/-- C13. In a scene whose scatterers all have the same radius `R` and are pairwise
non-overlapping, for a unit-direction ray strictly outside all scatterers: whenever `iterate`
returns `true`, the distance `d + s` travelled to the accepted scatterer is at most the
forward entry distance `d_j - sqrt disc_j` of every scatterer `j` passing the acceptance
test (`d_j ≥ 0`, `disc_j ≥ 0`): the scatterer with the nearest centre is the one met first. -/
theorem iterate_true_first_hit_equal_radius (m : GRModel ℝ) (r : Ray ℝ) (R : ℝ)
    (hR : ∀ S ∈ m.mSphere.tail, S.r = R)
    (hsep : m.mSphere.tail.Pairwise
      (fun S T => (S.r + T.r) * (S.r + T.r) ≤ (S.pos.sub T.pos).squaredNorm))
    (hv : r.v.squaredNorm = 1)
    (hout : ∀ S ∈ m.mSphere.tail, S.r * S.r < (S.pos.sub r.x).squaredNorm)
    (h : (m.iterate Real.sqrt r).2 = true) :
    ∃ i S, 1 ≤ i ∧ m.mSphere[i]? = some S ∧
      (m.iterate Real.sqrt r).1 = hitRay Real.sqrt r S ((S.pos.sub r.x).norm Real.sqrt) false ∧
      (m.iterate Real.sqrt r).1.x
        = r.x.add (vec.smul (travel Real.sqrt r S ((S.pos.sub r.x).norm Real.sqrt)) r.v) ∧
      ∀ j T, 1 ≤ j → m.mSphere[j]? = some T →
        0 ≤ r.v.dot (T.pos.sub r.x) →
        0 ≤ T.r ^ 2 + (r.v.dot (T.pos.sub r.x)) ^ 2 - (T.pos.sub r.x).squaredNorm →
        travel Real.sqrt r S ((S.pos.sub r.x).norm Real.sqrt)
          ≤ r.v.dot (T.pos.sub r.x)
            - Real.sqrt (T.r ^ 2 + (r.v.dot (T.pos.sub r.x)) ^ 2
                - (T.pos.sub r.x).squaredNorm) := by
  obtain ⟨i, S, hi, hS, hdS, hdiscS, hres, hmin⟩ := iterate_true_accepts m r h
  have hmemS := mem_tail_of_getElem? _ i S hi hS
  refine ⟨i, S, hi, hS, hres, by rw [hres]; rfl, ?_⟩
  intro j T hj hT hdT hdiscT
  have hmemT := mem_tail_of_getElem? _ j T hj hT
  rw [travel_outside r S (hout S hmemS)]
  by_cases hij : i = j
  · subst hij
    rw [hS] at hT
    cases Option.some.inj hT
    exact le_refl _
  · have hsepST : (S.r + T.r) * (S.r + T.r) ≤ (S.pos.sub T.pos).squaredNorm := by
      refine pairwise_tail_rel _ ?_ m.mSphere hsep i j S T hi hj hij hS hT
      intro a b hab
      have hsym : (b.pos.sub a.pos).squaredNorm = (a.pos.sub b.pos).squaredNorm := by
        simp only [vec.squaredNorm, vec.dot, vec.sub]; ring
      rw [hsym]
      nlinarith [hab]
    have hSR := hR S hmemS
    have hTR := hR T hmemT
    have hSout := hout S hmemS
    have hTout := hout T hmemT
    rw [hSR] at hsepST hdiscS hSout ⊢
    rw [hTR] at hsepST hdiscT hTout ⊢
    have hsA := Real.mul_self_sqrt hdiscS
    have hsB := Real.mul_self_sqrt hdiscT
    have hsA0 := Real.sqrt_nonneg
      (R ^ 2 + (r.v.dot (S.pos.sub r.x)) ^ 2 - (S.pos.sub r.x).squaredNorm)
    have hAB : (S.pos.sub r.x).squaredNorm ≤ (T.pos.sub r.x).squaredNorm :=
      (Real.sqrt_le_sqrt_iff (squaredNorm_nonneg _)).1 (hmin j T hj hT hdT (by rw [hTR]; exact hdiscT))
    have hP := hit_position_expand r.x r.v S.pos
      (r.v.dot (S.pos.sub r.x)
        - Real.sqrt (R ^ 2 + (r.v.dot (S.pos.sub r.x)) ^ 2 - (S.pos.sub r.x).squaredNorm))
    have hQ := hit_position_expand r.x r.v T.pos
      (r.v.dot (S.pos.sub r.x)
        - Real.sqrt (R ^ 2 + (r.v.dot (S.pos.sub r.x)) ^ 2 - (S.pos.sub r.x).squaredNorm))
    rw [hv] at hP hQ
    have hPon : ((r.x.add (vec.smul (r.v.dot (S.pos.sub r.x)
        - Real.sqrt (R ^ 2 + (r.v.dot (S.pos.sub r.x)) ^ 2 - (S.pos.sub r.x).squaredNorm))
        r.v)).sub S.pos).squaredNorm = R * R := by
      rw [hP]; linear_combination hsA
    have hgeo0 := outside_other_sphere _ S.pos T.pos R hPon hsepST
    rw [hQ] at hgeo0
    exact entry_le_of_nearer R _ _ _ _ _ _ hdS hdT hsA0 (by linear_combination hsA)
      (by linear_combination hsB) hTout hAB (by nlinarith [hgeo0, hsB])


/-- Witness for C13: `scenePair` (two scatterers of radius 1, centres 4 apart) and the ray
`rayBetween`, whose first call returns `true`. -/
theorem iterate_true_first_hit_equal_radius_witness :
    (∀ S ∈ (scenePair : GRModel ℝ).mSphere.tail, S.r = 1) ∧
    (scenePair : GRModel ℝ).mSphere.tail.Pairwise
      (fun S T => (S.r + T.r) * (S.r + T.r) ≤ (S.pos.sub T.pos).squaredNorm) ∧
    (rayBetween : Ray ℝ).v.squaredNorm = 1 ∧
    (∀ S ∈ (scenePair : GRModel ℝ).mSphere.tail,
      S.r * S.r < (S.pos.sub (rayBetween : Ray ℝ).x).squaredNorm) ∧
    ((scenePair : GRModel ℝ).iterate Real.sqrt rayBetween).2 = true ∧
    ∃ i S, 1 ≤ i ∧ (scenePair : GRModel ℝ).mSphere[i]? = some S ∧
      ((scenePair : GRModel ℝ).iterate Real.sqrt rayBetween).1
        = hitRay Real.sqrt rayBetween S ((S.pos.sub (rayBetween : Ray ℝ).x).norm Real.sqrt)
            false ∧
      ((scenePair : GRModel ℝ).iterate Real.sqrt rayBetween).1.x
        = (rayBetween : Ray ℝ).x.add
            (vec.smul (travel Real.sqrt rayBetween S
              ((S.pos.sub (rayBetween : Ray ℝ).x).norm Real.sqrt)) rayBetween.v) ∧
      ∀ j T, 1 ≤ j → (scenePair : GRModel ℝ).mSphere[j]? = some T →
        0 ≤ (rayBetween : Ray ℝ).v.dot (T.pos.sub rayBetween.x) →
        0 ≤ T.r ^ 2 + ((rayBetween : Ray ℝ).v.dot (T.pos.sub rayBetween.x)) ^ 2
              - (T.pos.sub (rayBetween : Ray ℝ).x).squaredNorm →
        travel Real.sqrt rayBetween S ((S.pos.sub (rayBetween : Ray ℝ).x).norm Real.sqrt)
          ≤ (rayBetween : Ray ℝ).v.dot (T.pos.sub rayBetween.x)
            - Real.sqrt (T.r ^ 2 + ((rayBetween : Ray ℝ).v.dot (T.pos.sub rayBetween.x)) ^ 2
                - (T.pos.sub (rayBetween : Ray ℝ).x).squaredNorm) :=
  ⟨by simp [scenePair, GRModel.new, GRModel.addSphere],
    by norm_num [scenePair, GRModel.new, GRModel.addSphere, vec.squaredNorm, vec.dot, vec.sub],
    by norm_num [rayBetween, vec.squaredNorm, vec.dot],
    by norm_num [scenePair, GRModel.new, GRModel.addSphere, rayBetween, vec.squaredNorm,
      vec.dot, vec.sub],
    by rw [show (rayBetween : Ray ℝ) = ⟨⟨1 / 2, 0, 0⟩, ⟨1, 0, 0⟩, 0⟩ from rfl,
      scenePair_step_start],
    iterate_true_first_hit_equal_radius scenePair rayBetween 1
      (by simp [scenePair, GRModel.new, GRModel.addSphere])
      (by norm_num [scenePair, GRModel.new, GRModel.addSphere, vec.squaredNorm, vec.dot,
        vec.sub])
      (by norm_num [rayBetween, vec.squaredNorm, vec.dot])
      (by norm_num [scenePair, GRModel.new, GRModel.addSphere, rayBetween, vec.squaredNorm,
        vec.dot, vec.sub])
      (by rw [show (rayBetween : Ray ℝ) = ⟨⟨1 / 2, 0, 0⟩, ⟨1, 0, 0⟩, 0⟩ from rfl,
        scenePair_step_start])⟩

end Scatter
